import Mathlib

/-! # bnrom: `dumper/battletiles.go`

A shallow embedding of `dumpBattleTiles`: the placement loop that lays the
expanded tiles out on the atlas canvas, the serialisation of the two
synthesized metadata blocks, and the block rewrite loop, followed by the
properties established about them.

Conventions of the embedding:

* Go `int` values that only count list positions are `Nat`; values that go
  through a narrowing conversion (`int16`, `int32`, `uint8`) are `Int`, and the
  conversion is an explicit wrap-around function.
* Bytes are natural numbers below 256.
* Calls into packages that are not part of this file (`paletted.DrawOver`,
  `pngchunks.Reader.NextChunk`, `pngchunks.Writer.WriteChunk`, `Chunk.Close`)
  are recorded in traces; their results are inputs of the model.
-/

namespace BattleTiles

/-! ## Constants -/

/-- The constant `tileWidth = 5 * 8`. -/
def tileWidth : Nat := 5 * 8

/-- The constant `tileHeight = 3 * 8`. -/
def tileHeight : Nat := 3 * 8

/-! ## Rectangles (`image.Point`, `image.Rectangle`, `image.Rect`) -/

/-- Go's `image.Point`. -/
structure Point where
  X : Int
  Y : Int
  deriving DecidableEq, Repr

/-- Go's `image.Rectangle`: `Min` inclusive, `Max` exclusive. -/
structure Rectangle where
  Min : Point
  Max : Point
  deriving DecidableEq, Repr

/-- Go's `image.Rect(x0, y0, x1, y1)`: the coordinates are swapped where needed so
that the result is well formed. -/
def imageRect (x0 y0 x1 y1 : Int) : Rectangle :=
  let (a0, a1) := if x0 > x1 then (x1, x0) else (x0, x1)
  let (b0, b1) := if y0 > y1 then (y1, y0) else (y0, y1)
  ⟨⟨a0, b0⟩, ⟨a1, b1⟩⟩

/-- Go's `Rectangle.Dx`. -/
def Rectangle.Dx (r : Rectangle) : Int := r.Max.X - r.Min.X

/-- Go's `Rectangle.Dy`. -/
def Rectangle.Dy (r : Rectangle) : Int := r.Max.Y - r.Min.Y

/-! ## The placement loop (lines 38-49) -/

/-- One call `paletted.DrawOver(img, rect, ShiftPalette(tileImg, m[pIndex]), image.Point{})`:
the destination rectangle, the source tile index `j`, the tile and the
palette-bank index of the recoloured copy. (`ShiftPalette`, the remap table `m`
and `DrawOver` are outside this file; the call is recorded, not executed.) -/
structure DrawCall (τ : Type) where
  rect : Rectangle
  j : Nat
  tile : τ
  pIndex : Int
  deriving DecidableEq, Repr

/-- State of the placement loop: the slot counter `idx` and the draw calls made so
far, in call order. -/
structure PlaceState (τ : Type) where
  idx : Nat
  draws : List (DrawCall τ)
  deriving DecidableEq, Repr

/-- State before the loop: `idx := 0`, nothing drawn. -/
def PlaceState.init (τ : Type) : PlaceState τ := ⟨0, []⟩

/-- Body of the inner loop for one palette-bank index. -/
def placeOne {τ : Type} (j : Nat) (tileImg : τ) (pIndex : Int) (s : PlaceState τ) :
    PlaceState τ :=
  let x : Nat := (s.idx % 9) * tileWidth
  let y : Nat := (s.idx / 9) * tileHeight
  { idx := s.idx + 1
    draws := s.draws ++
      [⟨imageRect x y (x + tileWidth) (y + tileHeight), j, tileImg, pIndex⟩] }

/-- The inner loop `for _, pIndex := range battletiles.RedTileByIndex[j/3]`. -/
def placeTile {τ : Type} (j : Nat) (tileImg : τ) : List Int → PlaceState τ → PlaceState τ
  | [], s => s
  | pIndex :: rest, s => placeTile j tileImg rest (placeOne j tileImg pIndex s)

/-- How the placement loop ended: it ran over every tile, or indexing
`RedTileByIndex[j/3]` was out of range (a run-time panic). -/
inductive PlaceExit where
  | finished
  | indexOutOfRange
  deriving DecidableEq, Repr

/-- The outer loop `for j, tileImg := range tiles`, from source index `j` on. -/
def placeFrom {τ : Type} (redTileByIndex : List (List Int)) :
    List τ → Nat → PlaceState τ → PlaceExit × PlaceState τ
  | [], _, s => (.finished, s)
  | tileImg :: rest, j, s =>
    match redTileByIndex[j / 3]? with
    | none => (.indexOutOfRange, s)
    | some pIndexes => placeFrom redTileByIndex rest (j + 1) (placeTile j tileImg pIndexes s)

/-- The placement loop of `dumpBattleTiles`. -/
def placementLoop {τ : Type} (redTileByIndex : List (List Int)) (tiles : List τ) :
    PlaceExit × PlaceState τ :=
  placeFrom redTileByIndex tiles 0 (PlaceState.init τ)

/-- Grid cell of slot `k`: the rectangle with top-left
`((k mod 9) * tileWidth, (k div 9) * tileHeight)` and size `tileWidth x tileHeight`. -/
def slotRect (k : Nat) : Rectangle :=
  ⟨⟨((k % 9) * 40 : Nat), ((k / 9) * 24 : Nat)⟩,
   ⟨((k % 9) * 40 + 40 : Nat), ((k / 9) * 24 + 24 : Nat)⟩⟩

/-- Invariant of the placement loop: the slot counter equals the number of draw
calls made, and the `k`-th draw call went to the grid cell of slot `k`. -/
def PlaceInv {τ : Type} (s : PlaceState τ) : Prop :=
  s.idx = s.draws.length ∧
    ∀ k (h : k < s.draws.length), (s.draws.get ⟨k, h⟩).rect = slotRect k

/-! ## Narrowing conversions and `encoding/binary` -/

/-- Go's conversion `int16(x)`: the low 16 bits of `x`, read as a signed value. -/
def int16 (x : Int) : Int := (x + 32768) % 65536 - 32768

/-- Go's conversion `int32(x)`: the low 32 bits of `x`, read as a signed value. -/
def int32 (x : Int) : Int := (x + 2147483648) % 4294967296 - 2147483648

/-- Go's conversion `uint8(x)`: the low 8 bits of `x`. -/
def uint8 (x : Int) : Nat := (x % 256).toNat

/-- The two bytes `binary.Write(&buf, binary.LittleEndian, v)` appends for an `int16`
value `v`: the two's-complement pattern, low byte first. -/
def putInt16LE (v : Int) : List Nat :=
  let u : Nat := (v % 65536).toNat
  [u % 256, u / 256]

/-- Bytes of an ASCII string literal, as `buf.WriteString` appends them. -/
def stringBytes (s : String) : List Nat := s.toList.map Char.toNat

/-! ## The alt-palette block (lines 94-107) -/

/-- Go's `color.RGBA`: four 8-bit channels. The entries of the consolidated palette
are `color.RGBA` values, on which the assertion `c.(color.RGBA)` is the identity. -/
structure RGBA where
  R : Fin 256
  G : Fin 256
  B : Fin 256
  A : Fin 256
  deriving DecidableEq, Repr

/-- The bytes `binary.Write(&buf, binary.LittleEndian, c.(color.RGBA))` appends: the four
channels in field order. -/
def RGBA.bytes (c : RGBA) : List Nat := [c.R.val, c.G.val, c.B.val, c.A.val]

/-- The loop `for _, c := range bluePal` over the buffer `buf`. -/
def altLoop : List RGBA → List Nat → List Nat
  | [], buf => buf
  | c :: rest, buf => altLoop rest (((buf ++ c.bytes) ++ [0xff]) ++ [0xff])

/-- Contents of `buf` when the alt-palette block is written. -/
def altPayload (bluePal : List RGBA) : List Nat :=
  altLoop bluePal ((([] ++ stringBytes "alt") ++ [0x00]) ++ [0x08])

/-! ## The frame-control block (lines 109-148) -/

/-- The type `battletiles.FrameInfo`, as far as `dumpBattleTiles` uses it. Its
declaration is outside this file; `Delay` is an integer that the code narrows with
`uint8(fi.Delay)`. -/
structure FrameInfo where
  Delay : Int
  IsEnd : Bool
  deriving DecidableEq, Repr

/-- The anonymous struct written for one frame: six `int16` fields, two `uint8`
fields. -/
structure FrameRecord where
  Left : Int
  Top : Int
  Right : Int
  Bottom : Int
  OriginX : Int
  OriginY : Int
  Delay : Nat
  Action : Nat
  deriving DecidableEq, Repr

/-- The struct literal built in the body of `for tileIdx, fi := range FrameInfos`. -/
def mkFrameRecord (tileIdx : Nat) (fi : FrameInfo) : FrameRecord :=
  let action : Nat := if fi.IsEnd then 0x01 else 0
  let x : Nat := (tileIdx % 9) * tileWidth
  let y : Nat := (tileIdx / 9) * tileHeight
  { Left := int16 x
    Top := int16 y
    Right := int16 ((x + tileWidth : Nat) : Int)
    Bottom := int16 ((y + tileHeight : Nat) : Int)
    OriginX := int16 0
    OriginY := int16 0
    Delay := uint8 fi.Delay
    Action := action }

/-- The bytes `binary.Write(&buf, binary.LittleEndian, record)` appends: the fields in
declaration order, without padding. -/
def FrameRecord.bytes (r : FrameRecord) : List Nat :=
  putInt16LE r.Left ++ putInt16LE r.Top ++ putInt16LE r.Right ++ putInt16LE r.Bottom ++
    putInt16LE r.OriginX ++ putInt16LE r.OriginY ++ [r.Delay, r.Action]

/-- The loop `for tileIdx, fi := range battletiles.FrameInfos` over the buffer `buf`,
from index `tileIdx` on. (The statement `tileIdx++` at the end of the body changes
a variable that `range` reassigns, so it has no effect.) -/
def fctrlLoop : List FrameInfo → Nat → List Nat → List Nat
  | [], _, buf => buf
  | fi :: rest, tileIdx, buf =>
    fctrlLoop rest (tileIdx + 1) (buf ++ (mkFrameRecord tileIdx fi).bytes)

/-- Contents of `buf` when the frame-control block is written. -/
def fctrlPayload (frameInfos : List FrameInfo) : List Nat :=
  fctrlLoop frameInfos 0 ((([] ++ stringBytes "fctrl") ++ [0x00]) ++ [0xff])

/-- Size in bytes of one frame record: six 16-bit fields and two 8-bit fields. -/
def recordSize : Nat := 6 * 2 + 2

/-- Length of the tag `"fctrl", 0x00, 0xff` that precedes the records. -/
def fctrlTagSize : Nat := 7

/-- Number of whole records that follow the tag in a frame-control payload. -/
def recordCount (payload : List Nat) : Nat := (payload.length - fctrlTagSize) / recordSize

/-! ## The rewrite loop (lines 80-154) -/

/-- Go `error` values, as far as the loop tells them apart. -/
inductive GoError where
  | EOF
  | other (code : Nat)
  deriving DecidableEq, Repr

/-- The test `errors.Is(err, io.EOF)`. -/
def GoError.isEOF : GoError → Bool
  | .EOF => true
  | .other _ => false

/-- A block handed out by `pngr.NextChunk()`: what `Length()` and `Type()` return,
the bytes it yields as a reader, and what `Close()` will return. -/
structure Chunk where
  length : Int
  typ : String
  data : List Nat
  closeErr : Option GoError
  deriving DecidableEq, Repr

/-- The pair `(chunk, err)` returned by one call of `pngr.NextChunk()`; a nil chunk
pointer is `none`. -/
structure ReadResult where
  chunk : Option Chunk
  err : Option GoError
  deriving DecidableEq, Repr

/-- A successful read of the block `c`. -/
def ReadResult.block (c : Chunk) : ReadResult := ⟨some c, none⟩

/-- One successful call of `pngw.WriteChunk`: either the forwarding call
`WriteChunk(chunk.Length(), chunk.Type(), chunk)` or the call for a block built in
a buffer, `WriteChunk(int32(buf.Len()), typ, buf)`. -/
inductive Written where
  | forwarded (c : Chunk)
  | synthesized (length : Int) (typ : String) (payload : List Nat)
  deriving DecidableEq, Repr

/-- The call `pngw.WriteChunk(int32(buf.Len()), "sPLT", ...)`. -/
def altBlock (bluePal : List RGBA) : Written :=
  .synthesized (int32 (altPayload bluePal).length) "sPLT" (altPayload bluePal)

/-- The call `pngw.WriteChunk(int32(buf.Len()), "zTXt", ...)`. -/
def fctrlBlock (frameInfos : List FrameInfo) : Written :=
  .synthesized (int32 (fctrlPayload frameInfos).length) "zTXt" (fctrlPayload frameInfos)

/-- State of the rewrite stage: the blocks written to the output, the blocks on
which `Close()` has been called (both in call order) and the number of
`WriteChunk` calls made so far. -/
structure RwState where
  out : List Written
  closed : List Chunk
  writes : Nat
  deriving DecidableEq, Repr

/-- State before the loop. -/
def RwState.init : RwState := ⟨[], [], 0⟩

/-- One call of `pngw.WriteChunk`. The outcome of the `n`-th call is given by
`wr n`; a failed call adds no block to the output. -/
def writeChunk (wr : Nat → Option GoError) (b : Written) (s : RwState) :
    Option GoError × RwState :=
  match wr s.writes with
  | some e => (some e, { s with writes := s.writes + 1 })
  | none => (none, { s with out := s.out ++ [b], writes := s.writes + 1 })

/-- One call of `chunk.Close()`. -/
def closeChunk (c : Chunk) (s : RwState) : Option GoError × RwState :=
  (c.closeErr, { s with closed := s.closed ++ [c] })

/-- The block `if chunk.Type() == "tRNS"` with its two `WriteChunk` calls; the result
is the error returned from inside it, if any. -/
def injectMetadata (bluePal : List RGBA) (frameInfos : List FrameInfo)
    (wr : Nat → Option GoError) (s : RwState) : Option GoError × RwState :=
  match writeChunk wr (altBlock bluePal) s with
  | (some e, s1) => (some e, s1)
  | (none, s1) => writeChunk wr (fctrlBlock frameInfos) s1

/-- The loop body after `NextChunk`, for a non-nil chunk: forward it, inject the
metadata after a `tRNS` block, close it. The result is the error of the `return err`
taken, if any. -/
def processChunk (bluePal : List RGBA) (frameInfos : List FrameInfo)
    (wr : Nat → Option GoError) (chunk : Chunk) (s : RwState) : Option GoError × RwState :=
  match writeChunk wr (.forwarded chunk) s with
  | (some e, s1) => (some e, s1)
  | (none, s1) =>
    if chunk.typ = "tRNS" then
      match injectMetadata bluePal frameInfos wr s1 with
      | (some e, s2) => (some e, s2)
      | (none, s2) => closeChunk chunk s2
    else closeChunk chunk s1

/-- How the rewrite loop ended: by `break` on end of stream, by a `return err`, or by
the run-time panic of calling `chunk.Length()` on a nil chunk. -/
inductive LoopExit where
  | eof
  | returned (e : GoError)
  | nilChunk
  deriving DecidableEq, Repr

/-- The loop `for { chunk, err := pngr.NextChunk() ... }`. The list holds the results
of the successive `NextChunk` calls; once it is used up the reader reports end of
stream. An error that is not end of stream does not leave the loop: control falls
through to the `WriteChunk` call with the chunk that came with it. -/
def rewriteLoop (bluePal : List RGBA) (frameInfos : List FrameInfo)
    (wr : Nat → Option GoError) : List ReadResult → RwState → LoopExit × RwState
  | [], s => (.eof, s)
  | r :: rest, s =>
    if r.err.any GoError.isEOF then (.eof, s)
    else
      match r.chunk with
      | none => (.nilChunk, s)
      | some chunk =>
        match processChunk bluePal frameInfos wr chunk s with
        | (some e, s1) => (.returned e, s1)
        | (none, s1) => rewriteLoop bluePal frameInfos wr rest s1

/-- What `dumpBattleTiles` does for its caller: return nil, return an error, or
panic. -/
inductive Outcome where
  | ok
  | error (e : GoError)
  | panic
  deriving DecidableEq, Repr

/-- Final state of the rewrite stage: the outcome, the state of the output and of
the blocks, and whether `g.Wait()` has been called. -/
structure Final where
  outcome : Outcome
  state : RwState
  waited : Bool
  deriving DecidableEq, Repr

/-- Lines 70-160 of `dumpBattleTiles`, after the encode stage has been started:
`pngchunks.NewReader`, `pngchunks.NewWriter`, the rewrite loop, and `g.Wait()`.
`newReaderErr`, `newWriterErr` and `encodeErr` are the results of the two
constructors and of the encode stage. -/
def rewriteStage (bluePal : List RGBA) (frameInfos : List FrameInfo)
    (newReaderErr newWriterErr : Option GoError) (reads : List ReadResult)
    (wr : Nat → Option GoError) (encodeErr : Option GoError) : Final :=
  match newReaderErr with
  | some e => ⟨.error e, RwState.init, false⟩
  | none =>
    match newWriterErr with
    | some e => ⟨.error e, RwState.init, false⟩
    | none =>
      match rewriteLoop bluePal frameInfos wr reads RwState.init with
      | (.returned e, s) => ⟨.error e, s, false⟩
      | (.nilChunk, s) => ⟨.panic, s, false⟩
      | (.eof, s) =>
        match encodeErr with
        | some e => ⟨.error e, s, true⟩
        | none => ⟨.ok, s, true⟩

/-- The blocks the loop body writes for one input block when nothing fails. -/
def blockOutput (bluePal : List RGBA) (frameInfos : List FrameInfo) (c : Chunk) : List Written :=
  .forwarded c :: (if c.typ = "tRNS" then [altBlock bluePal, fctrlBlock frameInfos] else [])

/-- The blocks a complete run writes for the input blocks `cs`: each input block,
and after each block of type `tRNS` the alt-palette block and the frame-control
block. -/
def expectedOutput (bluePal : List RGBA) (frameInfos : List FrameInfo) (cs : List Chunk) :
    List Written :=
  cs.flatMap (blockOutput bluePal frameInfos)

/-- The output with the synthesized blocks removed: the forwarded input blocks. -/
def forwardedBlocks : List Written → List Chunk
  | [] => []
  | .forwarded c :: rest => c :: forwardedBlocks rest
  | .synthesized _ _ _ :: rest => forwardedBlocks rest

/-- A writer on which every `WriteChunk` call succeeds. -/
def writerOk : Nat → Option GoError := fun _ => none

/-- The length argument of a `WriteChunk` call. -/
def Written.declaredLength : Written → Int
  | .forwarded c => c.length
  | .synthesized n _ _ => n

/-- The bytes a `WriteChunk` call is given as the block's payload. -/
def Written.body : Written → List Nat
  | .forwarded c => c.data
  | .synthesized _ _ p => p

/-! ## Rectangle geometry (`image.Point.In`, `image.Rectangle` methods) and the canvas -/

/-- Go's `Point.In`: the point lies in the rectangle. -/
def Point.In (p : Point) (r : Rectangle) : Bool :=
  decide (r.Min.X ≤ p.X) && decide (p.X < r.Max.X) &&
    decide (r.Min.Y ≤ p.Y) && decide (p.Y < r.Max.Y)

/-- Go's `Rectangle.Empty`: the rectangle contains no point. -/
def Rectangle.Empty (r : Rectangle) : Bool :=
  decide (r.Min.X ≥ r.Max.X) || decide (r.Min.Y ≥ r.Max.Y)

/-- Go's `image.ZR`, the zero rectangle. -/
def ZR : Rectangle := ⟨⟨0, 0⟩, ⟨0, 0⟩⟩

/-- Go's `Rectangle.Intersect`: the largest rectangle contained in both, the zero
rectangle when they do not overlap. -/
def Rectangle.Intersect (r s : Rectangle) : Rectangle :=
  let minX := if r.Min.X < s.Min.X then s.Min.X else r.Min.X
  let minY := if r.Min.Y < s.Min.Y then s.Min.Y else r.Min.Y
  let maxX := if r.Max.X > s.Max.X then s.Max.X else r.Max.X
  let maxY := if r.Max.Y > s.Max.Y then s.Max.Y else r.Max.Y
  let t : Rectangle := ⟨⟨minX, minY⟩, ⟨maxX, maxY⟩⟩
  if t.Empty then ZR else t

/-- Go's `Rectangle.Overlaps`: the two rectangles have a non-empty intersection. -/
def Rectangle.Overlaps (r s : Rectangle) : Bool :=
  !r.Empty && !s.Empty &&
    decide (r.Min.X < s.Max.X) && decide (s.Min.X < r.Max.X) &&
    decide (r.Min.Y < s.Max.Y) && decide (s.Min.Y < r.Max.Y)

/-- Go's `Rectangle.In`: every point of `r` is in `s`. -/
def Rectangle.In (r s : Rectangle) : Bool :=
  if r.Empty then true
  else decide (s.Min.X ≤ r.Min.X) && decide (r.Max.X ≤ s.Max.X) &&
    decide (s.Min.Y ≤ r.Min.Y) && decide (r.Max.Y ≤ s.Max.Y)

/-- Bounds of the canvas allocated on line 36:
`image.Rect(0, 0, 9*tileWidth, 200*tileHeight)`. -/
def canvasRect : Rectangle :=
  imageRect 0 0 ((9 * tileWidth : Nat) : Int) ((200 * tileHeight : Nat) : Int)

/-- Number of grid cells of the canvas: 9 columns by 200 rows. -/
def canvasCapacity : Nat := 9 * 200

/-- The rectangle the placement loop computes for the slot counter value `idx`:
`image.Rect(x, y, x+tileWidth, y+tileHeight)` with `x := (idx % 9) * tileWidth` and
`y := (idx / 9) * tileHeight`. -/
def placedRect (idx : Nat) : Rectangle :=
  let x : Nat := (idx % 9) * tileWidth
  let y : Nat := (idx / 9) * tileHeight
  imageRect x y (x + tileWidth) (y + tileHeight)

/-! ## Palette consolidation (`battletiles.ConsolidatePalbank`) -/

/-- The container format's maximum palette size. -/
def maxPaletteSize : Nat := 256

/-- The palette bank with index `pIndex`; a bank that does not exist has no colours. -/
def bankAt (palbanks : List (List RGBA)) (pIndex : Int) : List RGBA :=
  if 0 ≤ pIndex then palbanks[pIndex.toNat]?.getD [] else []

/-- The colours of the banks a variant refers to: tile groups in source order, the
banks of a group in list order, the colours of a bank in bank order. -/
def referencedColors (palbanks : List (List RGBA)) (tileByIndex : List (List Int)) :
    List RGBA :=
  tileByIndex.flatMap fun group => group.flatMap fun pIndex => bankAt palbanks pIndex

/-- Merging one colour into the global palette: a colour that is not yet present
(exact equality) is appended, a duplicate keeps the slot of its first occurrence. -/
def mergeColor (pal : List RGBA) (c : RGBA) : List RGBA :=
  if c ∈ pal then pal else pal ++ [c]

/-- The global palette of a variant: the referenced colours merged in order, each
unique colour once. -/
def globalPalette (palbanks : List (List RGBA)) (tileByIndex : List (List Int)) : List RGBA :=
  (referencedColors palbanks tileByIndex).foldl mergeColor []

/-- Modelled from the spec: `battletiles.ConsolidatePalbank`, the palette bank
consolidator of section 4.1, whose source is not in `dumper/battletiles.go`. It
merges the banks a variant uses into one global palette and "fails with a
CapacityExceeded condition if unique colors exceed the format's maximum palette
size"; `none` is that failure. Only the palette is modelled: the remap table it
also returns is used by `dumpBattleTiles` only as the argument `m[pIndex]` of
`ShiftPalette`, which the placement trace records as `pIndex`. -/
def ConsolidatePalbank (palbanks : List (List RGBA)) (tileByIndex : List (List Int)) :
    Option (List RGBA) :=
  if (globalPalette palbanks tileByIndex).length > maxPaletteSize then none
  else some (globalPalette palbanks tileByIndex)

/-! ## The whole of `dumpBattleTiles` (lines 22-161) -/

/-- How a call of `dumpBattleTiles` ends: it returns (`nil` or an error), a call of
`ConsolidatePalbank` fails with palette capacity exceeded (the call site takes no
error result, so the failure is not a returned value and nothing after the call
runs), or a run-time panic. -/
inductive DumpOutcome where
  | returned (err : Option GoError)
  | capacityExceeded
  | panicked
  deriving DecidableEq, Repr

/-- The return of `dumpBattleTiles` that corresponds to the end of the rewrite stage. -/
def DumpOutcome.ofStage : Outcome → DumpOutcome
  | .ok => .returned none
  | .error e => .returned (some e)
  | .panic => .panicked

/-- Result of a call of `dumpBattleTiles`: how it ended, whether `os.Create` has
created the output file, the blocks written and closed, and whether `g.Wait()`
has been called. -/
structure DumpResult where
  outcome : DumpOutcome
  fileCreated : Bool
  state : RwState
  waited : Bool
  deriving DecidableEq, Repr

/-- The function `dumpBattleTiles`. `consolidate` is `battletiles.ConsolidatePalbank`
(`none`: it fails); `readPalbanks`, `readTiles` and `createErr` are the results of
`battletiles.ReadPalbanks(r)`, `battletiles.ReadTiles(r)` and `os.Create(outFn)`; the
remaining arguments are those of `rewriteStage`. The trimmed image and the red
palette go to the encode stage only, whose output is `reads` and `encodeErr`. -/
def dumpBattleTiles {τ : Type}
    (consolidate : List (List RGBA) → List (List Int) → Option (List RGBA))
    (readPalbanks : Except GoError (List (List RGBA)))
    (redTileByIndex blueTileByIndex : List (List Int))
    (readTiles : Except GoError (List τ)) (createErr : Option GoError)
    (frameInfos : List FrameInfo) (newReaderErr newWriterErr : Option GoError)
    (reads : List ReadResult) (wr : Nat → Option GoError) (encodeErr : Option GoError) :
    DumpResult :=
  match readPalbanks with
  | .error e => ⟨.returned (some e), false, RwState.init, false⟩
  | .ok palbanks =>
    match consolidate palbanks redTileByIndex with
    | none => ⟨.capacityExceeded, false, RwState.init, false⟩
    | some _ =>
      match consolidate palbanks blueTileByIndex with
      | none => ⟨.capacityExceeded, false, RwState.init, false⟩
      | some bluePal =>
        match readTiles with
        | .error e => ⟨.returned (some e), false, RwState.init, false⟩
        | .ok tiles =>
          match (placementLoop redTileByIndex tiles).1 with
          | .indexOutOfRange => ⟨.panicked, false, RwState.init, false⟩
          | .finished =>
            match createErr with
            | some e => ⟨.returned (some e), false, RwState.init, false⟩
            | none =>
              let f := rewriteStage bluePal frameInfos newReaderErr newWriterErr reads wr
                encodeErr
              ⟨DumpOutcome.ofStage f.outcome, true, f.state, f.waited⟩

/-- A palette bank of `n` pairwise different colours. -/
def distinctBank (n : Nat) : List RGBA :=
  (List.range n).map fun i => ⟨Fin.ofNat (i % 256), Fin.ofNat (i / 256), 0, 255⟩

/-! ## Sample blocks used in the concrete runs below -/

/-- A header block. -/
def sampleIHDR : Chunk := ⟨13, "IHDR", [0, 0, 0, 40, 0, 0, 0, 24, 8, 3, 0, 0, 0], none⟩

/-- A palette block. -/
def samplePLTE : Chunk := ⟨3, "PLTE", [10, 20, 30], none⟩

/-- A transparency block, the trigger of the injection. -/
def sampleTRNS : Chunk := ⟨1, "tRNS", [0], none⟩

/-- A trailer block. -/
def sampleIEND : Chunk := ⟨0, "IEND", [], none⟩

/-- A sample call of `dumpBattleTiles`: one bank of four colours, two tiles, one frame
record, reading and creating succeed, the encode stage reports no error; the
behaviour of the block reader and writer is left open. -/
def sampleRun (newReaderErr newWriterErr : Option GoError) (reads : List ReadResult)
    (wr : Nat → Option GoError) : DumpResult :=
  dumpBattleTiles ConsolidatePalbank (.ok [distinctBank 4]) [[0]] [[0]]
    (.ok [(), ()]) none [⟨3, false⟩] newReaderErr newWriterErr reads wr none

/-- A block whose `Close` fails. -/
def sampleUnclosable : Chunk := ⟨4, "IDAT", [1, 2, 3, 4], some (.other 5)⟩

/-! ## Properties of the placement loop -/

theorem imageRect_slot (k : Nat) :
    imageRect (((k % 9) * tileWidth : Nat) : Int) (((k / 9) * tileHeight : Nat) : Int)
      ((((k % 9) * tileWidth + tileWidth : Nat)) : Int)
      ((((k / 9) * tileHeight + tileHeight : Nat)) : Int) = slotRect k := by
  have h1 : ¬ ((((k % 9) * tileWidth : Nat) : Int) >
      (((k % 9) * tileWidth + tileWidth : Nat) : Int)) := by
    have : (k % 9) * tileWidth ≤ (k % 9) * tileWidth + tileWidth := Nat.le_add_right _ _
    omega
  have h2 : ¬ ((((k / 9) * tileHeight : Nat) : Int) >
      (((k / 9) * tileHeight + tileHeight : Nat) : Int)) := by
    have : (k / 9) * tileHeight ≤ (k / 9) * tileHeight + tileHeight := Nat.le_add_right _ _
    omega
  simp only [imageRect, h1, h2, if_false]
  rfl

theorem placeInv_init (τ : Type) : PlaceInv (PlaceState.init τ) := by
  refine ⟨rfl, ?_⟩
  intro k h
  simp [PlaceState.init] at h

theorem placeInv_placeOne {τ : Type} (j : Nat) (t : τ) (p : Int) (s : PlaceState τ)
    (hs : PlaceInv s) : PlaceInv (placeOne j t p s) := by
  obtain ⟨hidx, hrect⟩ := hs
  refine ⟨by simp [placeOne, hidx], ?_⟩
  intro k h
  simp only [placeOne] at h ⊢
  by_cases hk : k < s.draws.length
  · rw [List.get_eq_getElem, List.getElem_append_left hk]
    simpa using hrect k hk
  · have hlen : k = s.draws.length := by
      simp at h
      omega
    subst hlen
    rw [List.get_eq_getElem, List.getElem_append_right (Nat.le_refl _)]
    simp only [Nat.sub_self, List.getElem_cons_zero]
    rw [hidx]
    push_cast
    exact_mod_cast imageRect_slot s.draws.length

theorem placeInv_placeTile {τ : Type} (j : Nat) (t : τ) (ps : List Int) :
    ∀ s : PlaceState τ, PlaceInv s → PlaceInv (placeTile j t ps s) := by
  induction ps with
  | nil => intro s hs; exact hs
  | cons p rest ih => intro s hs; exact ih _ (placeInv_placeOne j t p s hs)

theorem placeInv_placeFrom {τ : Type} (table : List (List Int)) (tiles : List τ) :
    ∀ (j : Nat) (s : PlaceState τ), PlaceInv s → PlaceInv (placeFrom table tiles j s).2 := by
  induction tiles with
  | nil => intro j s hs; exact hs
  | cons t rest ih =>
    intro j s hs
    simp only [placeFrom]
    cases h : table[j / 3]? with
    | none => exact hs
    | some ps => exact ih _ _ (placeInv_placeTile j t ps s hs)

/-- C1: in the placement loop, for every tile list and every expansion table, the
`k`-th draw call (counted from 0 over the whole expansion) goes to the rectangle
`image.Rect(x, y, x + tileWidth, y + tileHeight)` with `x = (k mod 9) * tileWidth` and
`y = (k div 9) * tileHeight`, that is top-left `((k mod 9) * 40, (k div 9) * 24)` and size
`40 x 24`, whatever source tile index and palette-bank index produced it. -/
theorem placement_kth_slot {τ : Type} (redTileByIndex : List (List Int)) (tiles : List τ)
    (k : Nat) (d : DrawCall τ) (h : (placementLoop redTileByIndex tiles).2.draws[k]? = some d) :
    d.rect = imageRect (((k % 9) * tileWidth : Nat) : Int) (((k / 9) * tileHeight : Nat) : Int)
        (((k % 9) * tileWidth + tileWidth : Nat) : Int)
        (((k / 9) * tileHeight + tileHeight : Nat) : Int) ∧
      d.rect.Min = ⟨((k % 9 : Nat) : Int) * 40, ((k / 9 : Nat) : Int) * 24⟩ ∧
      d.rect.Dx = 40 ∧ d.rect.Dy = 24 := by
  obtain ⟨hk, hget⟩ := List.getElem?_eq_some.mp h
  have hinv := (placeInv_placeFrom redTileByIndex tiles 0 _ (placeInv_init τ)).2 k hk
  have hd : d.rect = slotRect k := by
    rw [← hget]
    simpa [placementLoop] using hinv
  refine ⟨?_, ?_, ?_, ?_⟩
  · rw [hd, imageRect_slot]
  · rw [hd]; simp [slotRect]
  · rw [hd]; simp [slotRect, Rectangle.Dx]
  · rw [hd]; simp [slotRect, Rectangle.Dy]

/-- Witness for C1: three tiles of one group expanding four-fold give twelve slots;
slot 10 is drawn from source tile 2 into grid cell (1, 1). -/
theorem placement_kth_slot_witness :
    (placementLoop [[0, 1, 2, 3]] [(), (), ()]).2.draws[10]? =
        some ⟨⟨⟨40, 24⟩, ⟨80, 48⟩⟩, 2, (), 2⟩ ∧
      ((⟨⟨⟨40, 24⟩, ⟨80, 48⟩⟩, 2, (), 2⟩ : DrawCall Unit).rect =
          imageRect (((10 % 9) * tileWidth : Nat) : Int) (((10 / 9) * tileHeight : Nat) : Int)
            (((10 % 9) * tileWidth + tileWidth : Nat) : Int)
            (((10 / 9) * tileHeight + tileHeight : Nat) : Int) ∧
        (⟨⟨⟨40, 24⟩, ⟨80, 48⟩⟩, 2, (), 2⟩ : DrawCall Unit).rect.Min =
          ⟨((10 % 9 : Nat) : Int) * 40, ((10 / 9 : Nat) : Int) * 24⟩ ∧
        (⟨⟨⟨40, 24⟩, ⟨80, 48⟩⟩, 2, (), 2⟩ : DrawCall Unit).rect.Dx = 40 ∧
        (⟨⟨⟨40, 24⟩, ⟨80, 48⟩⟩, 2, (), 2⟩ : DrawCall Unit).rect.Dy = 24) :=
  ⟨by decide, placement_kth_slot [[0, 1, 2, 3]] [(), (), ()] 10 _ (by decide)⟩

/-! ## Properties of the rewrite loop -/

theorem writeChunk_ok (wr : Nat → Option GoError) (b : Written) (s : RwState)
    (h : wr s.writes = none) :
    writeChunk wr b s = (none, { s with out := s.out ++ [b], writes := s.writes + 1 }) := by
  simp [writeChunk, h]

theorem writeChunk_fail (wr : Nat → Option GoError) (b : Written) (s : RwState) (e : GoError)
    (h : wr s.writes = some e) :
    writeChunk wr b s = (some e, { s with writes := s.writes + 1 }) := by
  simp [writeChunk, h]

/-- What one pass through the loop body does to the state: it appends a prefix of
the blocks due for the input block, all of them when no `return err` is taken
before `Close`, and `Close` is called exactly when all of them were written. -/
theorem processChunk_spec (bluePal : List RGBA) (frameInfos : List FrameInfo)
    (wr : Nat → Option GoError) (c : Chunk) (s : RwState) :
    ∃ l, (processChunk bluePal frameInfos wr c s).2.out = s.out ++ l ∧
      l <+: blockOutput bluePal frameInfos c ∧
      ((processChunk bluePal frameInfos wr c s).1 = none →
        l = blockOutput bluePal frameInfos c ∧
        (processChunk bluePal frameInfos wr c s).2.closed = s.closed ++ [c]) := by
  by_cases ht : c.typ = "tRNS"
  · rcases h0 : wr s.writes with _ | e0
    · rcases h1 : wr (s.writes + 1) with _ | e1
      · rcases h2 : wr (s.writes + 1 + 1) with _ | e2
        · refine ⟨blockOutput bluePal frameInfos c, ?_, List.prefix_refl _, ?_⟩
          · simp [processChunk, injectMetadata, writeChunk, closeChunk, blockOutput, h0, h1, h2, ht]
          · intro _
            simp [processChunk, injectMetadata, writeChunk, closeChunk, h0, h1, h2, ht]
        · refine ⟨[.forwarded c, altBlock bluePal], ?_, ?_, ?_⟩
          · simp [processChunk, injectMetadata, writeChunk, closeChunk, h0, h1, h2, ht]
          · simp [blockOutput, ht]
          · simp [processChunk, injectMetadata, writeChunk, closeChunk, h0, h1, h2, ht]
      · refine ⟨[.forwarded c], ?_, ?_, ?_⟩
        · simp [processChunk, injectMetadata, writeChunk, closeChunk, h0, h1, ht]
        · simp [blockOutput, ht]
        · simp [processChunk, injectMetadata, writeChunk, closeChunk, h0, h1, ht]
    · refine ⟨[], ?_, List.nil_prefix, ?_⟩
      · simp [processChunk, writeChunk, h0]
      · simp [processChunk, writeChunk, h0]
  · rcases h0 : wr s.writes with _ | e0
    · refine ⟨[.forwarded c], ?_, ?_, ?_⟩
      · simp [processChunk, writeChunk, closeChunk, h0, ht]
      · simp [blockOutput, ht]
      · intro _
        simp [processChunk, writeChunk, closeChunk, blockOutput, h0, ht]
    · refine ⟨[], ?_, List.nil_prefix, ?_⟩
      · simp [processChunk, writeChunk, h0]
      · simp [processChunk, writeChunk, h0]

theorem expectedOutput_cons (bluePal : List RGBA) (frameInfos : List FrameInfo) (c : Chunk)
    (cs : List Chunk) :
    expectedOutput bluePal frameInfos (c :: cs) =
      blockOutput bluePal frameInfos c ++ expectedOutput bluePal frameInfos cs := by
  simp [expectedOutput]

theorem rewriteLoop_block_cons (bluePal : List RGBA) (frameInfos : List FrameInfo)
    (wr : Nat → Option GoError) (c : Chunk) (rest : List ReadResult) (s : RwState) :
    rewriteLoop bluePal frameInfos wr (ReadResult.block c :: rest) s =
      match processChunk bluePal frameInfos wr c s with
      | (some e, s1) => (.returned e, s1)
      | (none, s1) => rewriteLoop bluePal frameInfos wr rest s1 := by
  simp [rewriteLoop, ReadResult.block]

/-- What the rewrite loop does on a stream of successfully read blocks, whatever
the writer does: the output grows by a prefix of the expected output, by all of
it when the loop ends on end of stream, in which case every block read has been
closed once, in order. -/
theorem rewriteLoop_spec (bluePal : List RGBA) (frameInfos : List FrameInfo)
    (wr : Nat → Option GoError) (cs : List Chunk) :
    ∀ s : RwState, ∃ l,
      (rewriteLoop bluePal frameInfos wr (cs.map ReadResult.block) s).2.out = s.out ++ l ∧
      l <+: expectedOutput bluePal frameInfos cs ∧
      ((rewriteLoop bluePal frameInfos wr (cs.map ReadResult.block) s).1 = .eof →
        l = expectedOutput bluePal frameInfos cs ∧
        (rewriteLoop bluePal frameInfos wr (cs.map ReadResult.block) s).2.closed =
          s.closed ++ cs) := by
  induction cs with
  | nil =>
    intro s
    exact ⟨[], by simp [rewriteLoop], List.nil_prefix, fun _ => by simp [rewriteLoop, expectedOutput]⟩
  | cons c rest ih =>
    intro s
    obtain ⟨l0, hout0, hpre0, hok0⟩ := processChunk_spec bluePal frameInfos wr c s
    rw [List.map_cons, rewriteLoop_block_cons, expectedOutput_cons]
    rcases hp : processChunk bluePal frameInfos wr c s with ⟨oe, s1⟩
    rw [hp] at hout0 hok0
    cases oe with
    | some e =>
      refine ⟨l0, hout0, ?_, ?_⟩
      · exact hpre0.trans (List.prefix_append _ _)
      · intro h
        simp at h
    | none =>
      obtain ⟨hl0, hcl0⟩ := hok0 rfl
      obtain ⟨l1, hout1, hpre1, hok1⟩ := ih s1
      simp only at hout0 hcl0 ⊢
      refine ⟨l0 ++ l1, ?_, ?_, ?_⟩
      · rw [hout1, hout0, List.append_assoc]
      · rw [hl0]
        exact (List.prefix_append_right_inj _).mpr hpre1
      · intro h
        obtain ⟨hl1, hcl1⟩ := hok1 h
        refine ⟨by rw [hl0, hl1], ?_⟩
        rw [hcl1, hcl0, List.append_assoc]
        rfl

/-- On a stream of successfully read blocks, with a writer that never fails and
blocks whose `Close` never fails, the loop runs to the end of the stream. -/
theorem rewriteLoop_total (bluePal : List RGBA) (frameInfos : List FrameInfo)
    (wr : Nat → Option GoError) (hwr : ∀ n, wr n = none) (cs : List Chunk)
    (hcl : ∀ c ∈ cs, c.closeErr = none) :
    ∀ s : RwState,
      (rewriteLoop bluePal frameInfos wr (cs.map ReadResult.block) s).1 = .eof := by
  induction cs with
  | nil => intro s; simp [rewriteLoop]
  | cons c rest ih =>
    intro s
    have hc : c.closeErr = none := hcl c (List.mem_cons_self _ _)
    have hrest : ∀ c ∈ rest, c.closeErr = none := fun x hx => hcl x (List.mem_cons_of_mem _ hx)
    rw [List.map_cons, rewriteLoop_block_cons]
    have h1 : (processChunk bluePal frameInfos wr c s).1 = none := by
      by_cases ht : c.typ = "tRNS" <;>
        simp [processChunk, injectMetadata, writeChunk, closeChunk, hwr, ht, hc]
    rcases hp : processChunk bluePal frameInfos wr c s with ⟨oe, s1⟩
    rw [hp] at h1
    simp only at h1
    subst h1
    exact ih hrest s1

theorem forwardedBlocks_append (l1 l2 : List Written) :
    forwardedBlocks (l1 ++ l2) = forwardedBlocks l1 ++ forwardedBlocks l2 := by
  induction l1 with
  | nil => rfl
  | cons b rest ih =>
    cases b with
    | forwarded c => simp [forwardedBlocks, ih]
    | synthesized n t p => simp [forwardedBlocks, ih]

theorem forwardedBlocks_blockOutput (bluePal : List RGBA) (frameInfos : List FrameInfo)
    (c : Chunk) : forwardedBlocks (blockOutput bluePal frameInfos c) = [c] := by
  by_cases ht : c.typ = "tRNS" <;>
    simp [blockOutput, forwardedBlocks, altBlock, fctrlBlock, ht]

theorem forwardedBlocks_expectedOutput (bluePal : List RGBA) (frameInfos : List FrameInfo)
    (cs : List Chunk) : forwardedBlocks (expectedOutput bluePal frameInfos cs) = cs := by
  induction cs with
  | nil => rfl
  | cons c rest ih =>
    rw [expectedOutput_cons, forwardedBlocks_append, forwardedBlocks_blockOutput, ih]
    rfl

theorem length_expectedOutput (bluePal : List RGBA) (frameInfos : List FrameInfo)
    (cs : List Chunk) :
    (expectedOutput bluePal frameInfos cs).length =
      cs.length + 2 * cs.countP (fun c => c.typ = "tRNS") := by
  induction cs with
  | nil => rfl
  | cons c rest ih =>
    rw [expectedOutput_cons, List.length_append, ih, List.countP_cons]
    by_cases ht : c.typ = "tRNS"
    · simp [blockOutput, ht]; omega
    · simp [blockOutput, ht]; omega

theorem forwardedBlocks_prefix {l1 l2 : List Written} (h : l1 <+: l2) :
    forwardedBlocks l1 <+: forwardedBlocks l2 := by
  obtain ⟨t, rfl⟩ := h
  rw [forwardedBlocks_append]
  exact List.prefix_append _ _

/-- C2: for every stream of blocks read by the rewrite loop and every behaviour of
the writer, the blocks written are, in order, a prefix of: each input block,
followed right after each block of type `tRNS` by the alt-palette block (type
`sPLT`) and then the frame-control block (type `zTXt`); the forwarded blocks are a
prefix of the input in its original order. When the loop ends on end of stream
the output is all of that sequence and removing the synthesized blocks gives back
exactly the input sequence; and the loop does end so when no write and no close
fails. -/
theorem rewrite_preserves_order (bluePal : List RGBA) (frameInfos : List FrameInfo)
    (wr : Nat → Option GoError) (cs : List Chunk) :
    ((rewriteLoop bluePal frameInfos wr (cs.map ReadResult.block) RwState.init).2.out <+:
        cs.flatMap (fun c => Written.forwarded c ::
          (if c.typ = "tRNS" then
            [Written.synthesized (int32 (altPayload bluePal).length) "sPLT" (altPayload bluePal),
             Written.synthesized (int32 (fctrlPayload frameInfos).length) "zTXt"
               (fctrlPayload frameInfos)]
           else []))) ∧
      (forwardedBlocks
        (rewriteLoop bluePal frameInfos wr (cs.map ReadResult.block) RwState.init).2.out <+: cs) ∧
      ((rewriteLoop bluePal frameInfos wr (cs.map ReadResult.block) RwState.init).1 = .eof →
        (rewriteLoop bluePal frameInfos wr (cs.map ReadResult.block) RwState.init).2.out =
          cs.flatMap (fun c => Written.forwarded c ::
            (if c.typ = "tRNS" then
              [Written.synthesized (int32 (altPayload bluePal).length) "sPLT" (altPayload bluePal),
               Written.synthesized (int32 (fctrlPayload frameInfos).length) "zTXt"
                 (fctrlPayload frameInfos)]
             else [])) ∧
        forwardedBlocks
          (rewriteLoop bluePal frameInfos wr (cs.map ReadResult.block) RwState.init).2.out = cs) ∧
      ((∀ n, wr n = none) → (∀ c ∈ cs, c.closeErr = none) →
        (rewriteLoop bluePal frameInfos wr (cs.map ReadResult.block) RwState.init).1 = .eof) := by
  obtain ⟨l, hout, hpre, hok⟩ := rewriteLoop_spec bluePal frameInfos wr cs RwState.init
  have hl : (rewriteLoop bluePal frameInfos wr (cs.map ReadResult.block) RwState.init).2.out = l := by
    rw [hout]; rfl
  have hexp : cs.flatMap (fun c => Written.forwarded c ::
      (if c.typ = "tRNS" then
        [Written.synthesized (int32 (altPayload bluePal).length) "sPLT" (altPayload bluePal),
         Written.synthesized (int32 (fctrlPayload frameInfos).length) "zTXt"
           (fctrlPayload frameInfos)]
       else [])) = expectedOutput bluePal frameInfos cs := rfl
  rw [hexp, hl]
  refine ⟨hpre, ?_, ?_, ?_⟩
  · have := forwardedBlocks_prefix hpre
    rwa [forwardedBlocks_expectedOutput] at this
  · intro h
    obtain ⟨hl', _⟩ := hok h
    exact ⟨hl', by rw [hl', forwardedBlocks_expectedOutput]⟩
  · intro hwr hcl
    exact rewriteLoop_total bluePal frameInfos wr hwr cs hcl RwState.init

/-- Witness for C2: the stream header, palette, transparency, trailer with a writer
that never fails is rewritten to the same four blocks with the two synthesized
blocks right after the transparency block. -/
theorem rewrite_preserves_order_witness :
    (rewriteLoop [⟨1, 2, 3, 4⟩] [⟨3, false⟩] writerOk
        ([sampleIHDR, samplePLTE, sampleTRNS, sampleIEND].map ReadResult.block)
        RwState.init).1 = .eof ∧
      (rewriteLoop [⟨1, 2, 3, 4⟩] [⟨3, false⟩] writerOk
          ([sampleIHDR, samplePLTE, sampleTRNS, sampleIEND].map ReadResult.block)
          RwState.init).2.out =
        [sampleIHDR, samplePLTE, sampleTRNS, sampleIEND].flatMap
          (fun c => Written.forwarded c ::
            (if c.typ = "tRNS" then
              [Written.synthesized (int32 (altPayload [⟨1, 2, 3, 4⟩]).length) "sPLT"
                 (altPayload [⟨1, 2, 3, 4⟩]),
               Written.synthesized (int32 (fctrlPayload [⟨3, false⟩]).length) "zTXt"
                 (fctrlPayload [⟨3, false⟩])]
             else [])) ∧
      forwardedBlocks
        (rewriteLoop [⟨1, 2, 3, 4⟩] [⟨3, false⟩] writerOk
          ([sampleIHDR, samplePLTE, sampleTRNS, sampleIEND].map ReadResult.block)
          RwState.init).2.out = [sampleIHDR, samplePLTE, sampleTRNS, sampleIEND] :=
  ⟨by decide,
    (rewrite_preserves_order [⟨1, 2, 3, 4⟩] [⟨3, false⟩] writerOk
      [sampleIHDR, samplePLTE, sampleTRNS, sampleIEND]).2.2.1 (by decide)⟩

/-- C3, counterexample: a stream without a `tRNS` block (here a header and a
trailer) is processed without error and the output has as many blocks as the
input, not two more. -/
theorem rewrite_count_plus_two_counterexample :
    (rewriteStage [] [] none none [ReadResult.block sampleIHDR, ReadResult.block sampleIEND]
        writerOk none).outcome = .ok ∧
      (rewriteStage [] [] none none [ReadResult.block sampleIHDR, ReadResult.block sampleIEND]
        writerOk none).state.out.length ≠ [sampleIHDR, sampleIEND].length + 2 := by
  decide

/-- C3, amended: when the rewrite loop processes a stream of blocks to the end of the
stream, the number of blocks written equals the number of blocks read plus two
for each block of type `tRNS` among them; so it is the number read plus exactly
two when the stream has exactly one `tRNS` block. -/
theorem rewrite_count (bluePal : List RGBA) (frameInfos : List FrameInfo)
    (wr : Nat → Option GoError) (cs : List Chunk)
    (h : (rewriteLoop bluePal frameInfos wr (cs.map ReadResult.block) RwState.init).1 = .eof) :
    (rewriteLoop bluePal frameInfos wr (cs.map ReadResult.block) RwState.init).2.out.length =
        cs.length + 2 * cs.countP (fun c => c.typ = "tRNS") ∧
      (cs.countP (fun c => c.typ = "tRNS") = 1 →
        (rewriteLoop bluePal frameInfos wr (cs.map ReadResult.block) RwState.init).2.out.length =
          cs.length + 2) := by
  obtain ⟨l, hout, _, hok⟩ := rewriteLoop_spec bluePal frameInfos wr cs RwState.init
  obtain ⟨hl, _⟩ := hok h
  have hlen : (rewriteLoop bluePal frameInfos wr (cs.map ReadResult.block)
      RwState.init).2.out.length = cs.length + 2 * cs.countP (fun c => c.typ = "tRNS") := by
    rw [hout, hl, List.length_append, length_expectedOutput]
    simp [RwState.init]
  refine ⟨hlen, fun h1 => ?_⟩
  rw [hlen, h1]

/-- Witness for C3 (amended): a stream with one `tRNS` block among four blocks gives
six blocks. -/
theorem rewrite_count_witness :
    (rewriteLoop [⟨1, 2, 3, 4⟩] [⟨3, false⟩] writerOk
        ([sampleIHDR, samplePLTE, sampleTRNS, sampleIEND].map ReadResult.block)
        RwState.init).1 = .eof ∧
      [sampleIHDR, samplePLTE, sampleTRNS, sampleIEND].countP (fun c => c.typ = "tRNS") = 1 ∧
      (rewriteLoop [⟨1, 2, 3, 4⟩] [⟨3, false⟩] writerOk
        ([sampleIHDR, samplePLTE, sampleTRNS, sampleIEND].map ReadResult.block)
        RwState.init).2.out.length = 4 + 2 :=
  ⟨by decide, by decide,
    (rewrite_count [⟨1, 2, 3, 4⟩] [⟨3, false⟩] writerOk
      [sampleIHDR, samplePLTE, sampleTRNS, sampleIEND] (by decide)).2 (by decide)⟩

/-! ## Properties of the synthesized payloads -/

theorem putInt16LE_length (v : Int) : (putInt16LE v).length = 2 := rfl

theorem frameRecord_length (tileIdx : Nat) (fi : FrameInfo) :
    (mkFrameRecord tileIdx fi).bytes.length = 14 := by
  simp [FrameRecord.bytes, putInt16LE_length]

theorem fctrlLoop_append (fis : List FrameInfo) :
    ∀ (i : Nat) (buf : List Nat), fctrlLoop fis i buf = buf ++ fctrlLoop fis i [] := by
  induction fis with
  | nil => intro i buf; simp [fctrlLoop]
  | cons fi rest ih =>
    intro i buf
    rw [fctrlLoop, ih (i + 1) (buf ++ _), fctrlLoop, ih (i + 1) ([] ++ _)]
    simp

theorem fctrlLoop_length (fis : List FrameInfo) :
    ∀ (i : Nat) (buf : List Nat),
      (fctrlLoop fis i buf).length = buf.length + 14 * fis.length := by
  induction fis with
  | nil => intro i buf; simp [fctrlLoop]
  | cons fi rest ih =>
    intro i buf
    rw [fctrlLoop, ih, List.length_append, frameRecord_length, List.length_cons]
    omega

/-- The record of the `k`-th entry occupies the 14 bytes that start `14 * k` bytes
after the buffer the loop started from. -/
theorem fctrlLoop_slice (fis : List FrameInfo) :
    ∀ (i : Nat) (buf : List Nat) (k : Nat) (fi : FrameInfo), fis[k]? = some fi →
      ((fctrlLoop fis i buf).drop (buf.length + 14 * k)).take 14 =
        (mkFrameRecord (i + k) fi).bytes := by
  induction fis with
  | nil => intro i buf k fi h; simp at h
  | cons fi0 rest ih =>
    intro i buf k fi h
    cases k with
    | zero =>
      simp only [List.getElem?_cons_zero, Option.some.injEq] at h
      subst h
      rw [fctrlLoop, fctrlLoop_append, List.append_assoc]
      simp only [Nat.mul_zero, Nat.add_zero, List.drop_left]
      rw [List.take_append_of_le_length (by rw [frameRecord_length]),
        List.take_of_length_le (by rw [frameRecord_length])]
    | succ k =>
      simp only [List.getElem?_cons_succ] at h
      have := ih (i + 1) (buf ++ (mkFrameRecord i fi0).bytes) k fi h
      rw [List.length_append, frameRecord_length] at this
      rw [fctrlLoop]
      have e1 : buf.length + 14 * (k + 1) = buf.length + 14 + 14 * k := by omega
      have e2 : i + (k + 1) = i + 1 + k := by omega
      rw [e1, e2]
      exact this

theorem fctrlPayload_length (fis : List FrameInfo) :
    (fctrlPayload fis).length = 7 + 14 * fis.length := by
  rw [fctrlPayload, fctrlLoop_length]
  rfl

theorem fctrlPayload_slice (fis : List FrameInfo) (k : Nat) (fi : FrameInfo)
    (h : fis[k]? = some fi) :
    ((fctrlPayload fis).drop (7 + 14 * k)).take 14 = (mkFrameRecord k fi).bytes := by
  have := fctrlLoop_slice fis 0 ((([] ++ stringBytes "fctrl") ++ [0x00]) ++ [0xff]) k fi h
  rw [Nat.zero_add] at this
  exact this

theorem getElem?_of_slice {l r : List Nat} {a n : Nat} (h : (l.drop a).take n = r) (i : Nat)
    (hi : i < n) : l[a + i]? = r[i]? := by
  rw [← h, List.getElem?_take_of_lt hi, List.getElem?_drop]

theorem altLoop_append (pal : List RGBA) :
    ∀ buf : List Nat, altLoop pal buf = buf ++ altLoop pal [] := by
  induction pal with
  | nil => intro buf; simp [altLoop]
  | cons c rest ih =>
    intro buf
    rw [altLoop, ih (_ ++ _), altLoop, ih (_ ++ _)]
    simp

theorem altLoop_flatMap (pal : List RGBA) :
    altLoop pal [] = pal.flatMap (fun c => [c.R.val, c.G.val, c.B.val, c.A.val, 0xff, 0xff]) := by
  induction pal with
  | nil => rfl
  | cons c rest ih =>
    rw [altLoop, altLoop_append, ih]
    simp [RGBA.bytes]

theorem length_flatMap_six (pal : List RGBA) :
    (pal.flatMap (fun c => [c.R.val, c.G.val, c.B.val, c.A.val, 0xff, 0xff])).length =
      6 * pal.length := by
  induction pal with
  | nil => rfl
  | cons c rest ih =>
    rw [List.flatMap_cons, List.length_append, ih, List.length_cons]
    simp
    omega

theorem int32_of_small (n : Nat) (h : n < 2147483648) : int32 (n : Int) = (n : Int) := by
  unfold int32
  omega

theorem fctrlPayload_eq (fis : List FrameInfo) :
    fctrlPayload fis = [102, 99, 116, 114, 108, 0, 255] ++ fctrlLoop fis 0 [] := by
  rw [fctrlPayload, fctrlLoop_append]
  rfl

theorem fctrlBlock_declaredLength (fis : List FrameInfo) :
    (fctrlBlock fis).declaredLength = int32 ((fctrlPayload fis).length : Int) := by
  rw [fctrlBlock, Written.declaredLength]

theorem fctrlBlock_body (fis : List FrameInfo) : (fctrlBlock fis).body = fctrlPayload fis := by
  rw [fctrlBlock, Written.body]

theorem recordCount_fctrlPayload (fis : List FrameInfo) :
    recordCount (fctrlBlock fis).body = fis.length := by
  rw [fctrlBlock_body, recordCount, fctrlPayload_length]
  simp [fctrlTagSize, recordSize]

/-- C4, counterexample: one tile whose group expands once, so the placement loop
places exactly one slot, and a frame-info list of two entries. The run reads a
header, palette, transparency and trailer block, and the frame-control block it
writes after the transparency block has two records, not one. -/
theorem fctrl_count_vs_slots_counterexample :
    (placementLoop [[0]] [()]).1 = .finished ∧
      (placementLoop [[0]] [()]).2.idx = 1 ∧
      (placementLoop [[0]] [()]).2.draws.length = 1 ∧
      (rewriteStage [⟨1, 2, 3, 4⟩] [⟨0, false⟩, ⟨0, true⟩] none none
        ([sampleIHDR, samplePLTE, sampleTRNS, sampleIEND].map ReadResult.block) writerOk
        none).outcome = .ok ∧
      (rewriteStage [⟨1, 2, 3, 4⟩] [⟨0, false⟩, ⟨0, true⟩] none none
        ([sampleIHDR, samplePLTE, sampleTRNS, sampleIEND].map ReadResult.block) writerOk
        none).state.out[4]? = some (fctrlBlock [⟨0, false⟩, ⟨0, true⟩]) ∧
      recordCount (fctrlBlock [⟨0, false⟩, ⟨0, true⟩]).body = 2 ∧
      recordCount (fctrlBlock [⟨0, false⟩, ⟨0, true⟩]).body ≠ (placementLoop [[0]] [()]).2.idx := by
  decide

/-- C4, amended: for every tile list, expansion table and frame-info list, the number
of records in the frame-control block equals the length of the frame-info list,
whatever the placement loop placed; it equals the final slot counter `idx` exactly
when the frame-info list has `idx` entries, and an empty frame-info list gives a
block with zero records. -/
theorem fctrl_count_is_frameInfos {τ : Type} (redTileByIndex : List (List Int))
    (tiles : List τ) (frameInfos : List FrameInfo) :
    recordCount (fctrlBlock frameInfos).body = frameInfos.length ∧
      (recordCount (fctrlBlock frameInfos).body = (placementLoop redTileByIndex tiles).2.idx ↔
        frameInfos.length = (placementLoop redTileByIndex tiles).2.idx) ∧
      recordCount (fctrlBlock []).body = 0 := by
  have h : recordCount (fctrlBlock frameInfos).body = frameInfos.length :=
    recordCount_fctrlPayload frameInfos
  exact ⟨h, by rw [h], recordCount_fctrlPayload []⟩

/-- C5, counterexample: for the empty frame-info list the length passed to
`WriteChunk` for the `zTXt` block is 7, the length of the tag, not
`0 * record_size = 0`. -/
theorem fctrl_length_counterexample :
    (fctrlBlock []).declaredLength = 7 ∧
      (fctrlBlock []).declaredLength ≠
        ((([] : List FrameInfo).length * recordSize : Nat) : Int) := by
  decide

/-- C5, amended: for every frame-info list whose payload length fits a signed 32-bit
integer, the length passed to `WriteChunk` for the `zTXt` block equals
`7 + record_count * record_size` with `record_size = 14`: the payload is the 7-byte
tag `"fctrl", 0x00, 0xff` followed by exactly `record_count * record_size` bytes of
records. -/
theorem fctrl_length (frameInfos : List FrameInfo)
    (h : fctrlTagSize + frameInfos.length * recordSize < 2147483648) :
    (fctrlBlock frameInfos).declaredLength =
        ((fctrlTagSize + frameInfos.length * recordSize : Nat) : Int) ∧
      (fctrlBlock frameInfos).body.length = 7 + frameInfos.length * 14 ∧
      (fctrlBlock frameInfos).body.take 7 = [102, 99, 116, 114, 108, 0, 255] ∧
      ((fctrlBlock frameInfos).body.drop 7).length = frameInfos.length * recordSize := by
  have hlen : (fctrlPayload frameInfos).length = fctrlTagSize + frameInfos.length * recordSize := by
    rw [fctrlPayload_length]
    simp [fctrlTagSize, recordSize]
    omega
  refine ⟨?_, ?_, ?_, ?_⟩
  · rw [fctrlBlock_declaredLength, hlen]
    exact int32_of_small _ h
  · rw [fctrlBlock_body, fctrlPayload_length]
    omega
  · rw [fctrlBlock_body, fctrlPayload_eq]
    simp
  · rw [fctrlBlock_body, List.length_drop, fctrlPayload_length]
    simp only [recordSize]
    omega

/-- Witness for C5 (amended): two frame records give a declared length of
`7 + 2 * 14 = 35`. -/
theorem fctrl_length_witness :
    (fctrlBlock [⟨3, false⟩, ⟨5, true⟩]).declaredLength = ((7 + 2 * 14 : Nat) : Int) ∧
      (fctrlBlock [⟨3, false⟩, ⟨5, true⟩]).body.length = 7 + 2 * 14 ∧
      (fctrlBlock [⟨3, false⟩, ⟨5, true⟩]).body.take 7 = [102, 99, 116, 114, 108, 0, 255] ∧
      ((fctrlBlock [⟨3, false⟩, ⟨5, true⟩]).body.drop 7).length = 2 * 14 :=
  fctrl_length [⟨3, false⟩, ⟨5, true⟩] (by decide)

theorem putInt16LE_zero : putInt16LE (int16 0) = [0, 0] := by decide

theorem frameRecord_bytes (k : Nat) (fi : FrameInfo) :
    (mkFrameRecord k fi).bytes =
      putInt16LE (int16 (((k % 9) * 40 : Nat) : Int)) ++
        putInt16LE (int16 (((k / 9) * 24 : Nat) : Int)) ++
        putInt16LE (int16 (((k % 9) * 40 + 40 : Nat) : Int)) ++
        putInt16LE (int16 (((k / 9) * 24 + 24 : Nat) : Int)) ++
        [0, 0] ++ [0, 0] ++ [uint8 fi.Delay, if fi.IsEnd then 1 else 0] := by
  rw [FrameRecord.bytes, mkFrameRecord]
  simp only [putInt16LE_zero]
  have hw : tileWidth = 40 := by decide
  have hh : tileHeight = 24 := by decide
  rw [hw, hh]

theorem int16_of_small (n : Nat) (h : n < 32768) : int16 (n : Int) = (n : Int) := by
  unfold int16
  omega

/-- The two bytes stored for a non-negative coordinate `n`: the low 16 bits of `n`, the
low byte first, then the high byte. -/
theorem putInt16LE_int16_nat (n : Nat) :
    putInt16LE (int16 (n : Int)) = [n % 256, n / 256 % 256] := by
  have hu : ((int16 (n : Int)) % 65536).toNat = n % 65536 := by
    unfold int16
    omega
  simp only [putInt16LE]
  rw [hu]
  have h1 : n % 65536 % 256 = n % 256 := by omega
  have h2 : n % 65536 / 256 = n / 256 % 256 := by omega
  rw [h1, h2]

/-- Signed values are stored in two's complement, low byte first. -/
theorem putInt16LE_samples :
    putInt16LE 264 = [8, 1] ∧ putInt16LE 32767 = [255, 127] ∧ putInt16LE (-1) = [255, 255] ∧
      putInt16LE (-32768) = [0, 128] ∧ putInt16LE (int16 32784) = [16, 128] ∧
      int16 32784 = -32752 := by
  decide

/-- C6: for every frame record at position `k` of the frame-info list, the 14 bytes of
the frame-control payload that start at offset `7 + 14 * k` are, in this order and
little-endian: `left = (k mod 9) * 40`, `top = (k div 9) * 24`, `right = left + 40`,
`bottom = top + 24`, each converted to a signed 16-bit value, then `originX = 0`
and `originY = 0`, then the delay byte and the action byte. The coordinates are
those of the untrimmed canvas grid; `left` and `right` are never changed by the
conversion. Byte for byte, each coordinate `c` is stored as `c mod 256` followed by
`(c div 256) mod 256` (the low 16 bits of `c`, low byte first), the origin as four
zero bytes, then the delay byte and the action byte. -/
theorem fctrl_record_layout (frameInfos : List FrameInfo) (k : Nat) (fi : FrameInfo)
    (h : frameInfos[k]? = some fi) :
    ((fctrlPayload frameInfos).drop (7 + 14 * k)).take 14 =
        putInt16LE (int16 (((k % 9) * 40 : Nat) : Int)) ++
        putInt16LE (int16 (((k / 9) * 24 : Nat) : Int)) ++
        putInt16LE (int16 (((k % 9) * 40 + 40 : Nat) : Int)) ++
        putInt16LE (int16 (((k / 9) * 24 + 24 : Nat) : Int)) ++
        [0, 0] ++ [0, 0] ++ [uint8 fi.Delay, if fi.IsEnd then 1 else 0] ∧
      int16 (((k % 9) * 40 : Nat) : Int) = (((k % 9) * 40 : Nat) : Int) ∧
      int16 (((k % 9) * 40 + 40 : Nat) : Int) = (((k % 9) * 40 + 40 : Nat) : Int) ∧
      ((fctrlPayload frameInfos).drop (7 + 14 * k)).take 14 =
        [(k % 9) * 40 % 256, (k % 9) * 40 / 256 % 256,
         (k / 9) * 24 % 256, (k / 9) * 24 / 256 % 256,
         ((k % 9) * 40 + 40) % 256, ((k % 9) * 40 + 40) / 256 % 256,
         ((k / 9) * 24 + 24) % 256, ((k / 9) * 24 + 24) / 256 % 256,
         0, 0, 0, 0,
         (fi.Delay % 256).toNat, if fi.IsEnd then 1 else 0] := by
  refine ⟨?_, ?_, ?_, ?_⟩
  · rw [fctrlPayload_slice frameInfos k fi h, frameRecord_bytes]
  · apply int16_of_small
    omega
  · apply int16_of_small
    omega
  · rw [fctrlPayload_slice frameInfos k fi h, frameRecord_bytes, putInt16LE_int16_nat,
      putInt16LE_int16_nat, putInt16LE_int16_nat, putInt16LE_int16_nat]
    rfl

set_option maxRecDepth 8000 in
/-- Witness for C6: in a list of one hundred frame records the record at position 99
lies in grid cell (0, 11): left 0, top 264 (bytes 8, 1), right 40, bottom 288
(bytes 32, 1), origin (0, 0), delay 7, action 1. -/
theorem fctrl_record_layout_witness :
    (List.replicate 99 (⟨2, false⟩ : FrameInfo) ++ [⟨7, true⟩])[99]? = some ⟨7, true⟩ ∧
      ((fctrlPayload (List.replicate 99 (⟨2, false⟩ : FrameInfo) ++ [⟨7, true⟩])).drop
          (7 + 14 * 99)).take 14 =
        [0, 0, 8, 1, 40, 0, 32, 1, 0, 0, 0, 0, 7, 1] ∧
      ((fctrlPayload (List.replicate 10 (⟨2, false⟩ : FrameInfo) ++ [⟨7, true⟩])).drop
          (7 + 14 * 10)).take 14 =
        [40, 0, 24, 0, 80, 0, 48, 0, 0, 0, 0, 0, 7, 1] :=
  ⟨by decide,
    (fctrl_record_layout (List.replicate 99 (⟨2, false⟩ : FrameInfo) ++ [⟨7, true⟩]) 99
      ⟨7, true⟩ (by decide)).2.2.2,
    (fctrl_record_layout (List.replicate 10 (⟨2, false⟩ : FrameInfo) ++ [⟨7, true⟩]) 10
      ⟨7, true⟩ (by decide)).1⟩

theorem frameRecord_delay_byte (k : Nat) (fi : FrameInfo) :
    (mkFrameRecord k fi).bytes[12]? = some (uint8 fi.Delay) := by
  rw [frameRecord_bytes]
  simp [putInt16LE]

theorem frameRecord_action_byte (k : Nat) (fi : FrameInfo) :
    (mkFrameRecord k fi).bytes[13]? = some (if fi.IsEnd then 1 else 0) := by
  rw [frameRecord_bytes]
  simp [putInt16LE]

/-- C7, counterexample: a source record with delay 300 gets the delay byte 44
(`300 mod 256`), not its delay value. -/
theorem fctrl_delay_counterexample :
    (fctrlPayload [⟨300, false⟩])[7 + 14 * 0 + 12]? = some 44 ∧
      ((fctrlPayload [⟨300, false⟩])[7 + 14 * 0 + 12]?).map Int.ofNat ≠ some 300 := by
  decide

/-- C7, amended: for every source frame-info record, the delay byte written in its
frame-control record is the source delay converted to an unsigned 8-bit value
(the delay modulo 256), which is the delay itself whenever it lies in `0 .. 255`;
the action byte is 1 if and only if the record's end-of-sequence flag is set, and
0 otherwise. -/
theorem fctrl_delay_action (frameInfos : List FrameInfo) (k : Nat) (fi : FrameInfo)
    (h : frameInfos[k]? = some fi) :
    (fctrlPayload frameInfos)[7 + 14 * k + 12]? = some (fi.Delay % 256).toNat ∧
      (0 ≤ fi.Delay → fi.Delay < 256 →
        ((fctrlPayload frameInfos)[7 + 14 * k + 12]?).map Int.ofNat = some fi.Delay) ∧
      (fctrlPayload frameInfos)[7 + 14 * k + 13]? = some (if fi.IsEnd then 1 else 0) ∧
      ((fctrlPayload frameInfos)[7 + 14 * k + 13]? = some 1 ↔ fi.IsEnd = true) := by
  have hs := fctrlPayload_slice frameInfos k fi h
  have h12 : (fctrlPayload frameInfos)[7 + 14 * k + 12]? = some (fi.Delay % 256).toNat := by
    rw [getElem?_of_slice hs 12 (by omega), frameRecord_delay_byte]
    rfl
  have h13 : (fctrlPayload frameInfos)[7 + 14 * k + 13]? = some (if fi.IsEnd then 1 else 0) := by
    rw [getElem?_of_slice hs 13 (by omega), frameRecord_action_byte]
  refine ⟨h12, ?_, h13, ?_⟩
  · intro h0 h1
    rw [h12]
    have : fi.Delay % 256 = fi.Delay := Int.emod_eq_of_lt h0 h1
    rw [this]
    simp only [Option.map_some', Option.some.injEq]
    exact Int.toNat_of_nonneg h0
  · rw [h13]
    cases fi.IsEnd <;> simp

/-- Witness for C7 (amended): the second of two records has delay 200 and the end
flag set; its bytes 12 and 13 are 200 and 1. -/
theorem fctrl_delay_action_witness :
    ([⟨3, false⟩, ⟨200, true⟩] : List FrameInfo)[1]? = some ⟨200, true⟩ ∧
      (fctrlPayload [⟨3, false⟩, ⟨200, true⟩])[7 + 14 * 1 + 12]? = some 200 ∧
      ((fctrlPayload [⟨3, false⟩, ⟨200, true⟩])[7 + 14 * 1 + 12]?).map Int.ofNat = some 200 ∧
      (fctrlPayload [⟨3, false⟩, ⟨200, true⟩])[7 + 14 * 1 + 13]? = some 1 :=
  ⟨by decide,
    (fctrl_delay_action [⟨3, false⟩, ⟨200, true⟩] 1 ⟨200, true⟩ (by decide)).1,
    (fctrl_delay_action [⟨3, false⟩, ⟨200, true⟩] 1 ⟨200, true⟩ (by decide)).2.1
      (by decide) (by decide),
    (fctrl_delay_action [⟨3, false⟩, ⟨200, true⟩] 1 ⟨200, true⟩ (by decide)).2.2.1⟩

theorem altPayload_eq (bluePal : List RGBA) :
    altPayload bluePal = [97, 108, 116, 0, 8] ++
      bluePal.flatMap (fun c => [c.R.val, c.G.val, c.B.val, c.A.val, 0xff, 0xff]) := by
  rw [altPayload, altLoop_append, altLoop_flatMap]
  rfl

theorem altBlock_declaredLength (bluePal : List RGBA) :
    (altBlock bluePal).declaredLength = int32 ((altPayload bluePal).length : Int) := by
  rw [altBlock, Written.declaredLength]

theorem altBlock_body (bluePal : List RGBA) : (altBlock bluePal).body = altPayload bluePal := by
  rw [altBlock, Written.body]

/-- C8: for every alternate palette of `n` colours, the payload of the alt-palette
block is the tag `"alt", 0x00, 0x08` followed by, for each palette entry in palette
order, its bytes R, G, B, A and the two trailer bytes `0xff 0xff`; the body after
the tag has exactly `6 * n` bytes, the payload has `5 + 6 * n` bytes, the length
declared to `WriteChunk` equals the payload length (as long as it fits a signed
32-bit integer), and an empty palette gives the tag alone. -/
theorem alt_payload_layout (bluePal : List RGBA) :
    (altBlock bluePal).body = [97, 108, 116, 0, 8] ++
        bluePal.flatMap (fun c => [c.R.val, c.G.val, c.B.val, c.A.val, 0xff, 0xff]) ∧
      ((altBlock bluePal).body.drop 5).length = 6 * bluePal.length ∧
      (altBlock bluePal).body.length = 5 + 6 * bluePal.length ∧
      (5 + 6 * bluePal.length < 2147483648 →
        (altBlock bluePal).declaredLength = (((altBlock bluePal).body.length : Nat) : Int)) ∧
      (altBlock []).body = [97, 108, 116, 0, 8] := by
  have hlen : (altPayload bluePal).length = 5 + 6 * bluePal.length := by
    rw [altPayload_eq, List.length_append, length_flatMap_six]
    rfl
  refine ⟨?_, ?_, ?_, ?_, ?_⟩
  · rw [altBlock_body, altPayload_eq]
  · rw [altBlock_body, List.length_drop, hlen]
    omega
  · rw [altBlock_body, hlen]
  · intro h
    rw [altBlock_declaredLength, altBlock_body, hlen]
    exact int32_of_small _ h
  · rw [altBlock_body, altPayload_eq]
    rfl

/-- Witness for C8: a palette of two colours gives a declared length of
`5 + 6 * 2 = 17`. -/
theorem alt_payload_layout_witness :
    5 + 6 * ([⟨1, 2, 3, 4⟩, ⟨5, 6, 7, 8⟩] : List RGBA).length < 2147483648 ∧
      (altBlock [⟨1, 2, 3, 4⟩, ⟨5, 6, 7, 8⟩]).declaredLength = 17 ∧
      (altBlock [⟨1, 2, 3, 4⟩, ⟨5, 6, 7, 8⟩]).body =
        [97, 108, 116, 0, 8, 1, 2, 3, 4, 255, 255, 5, 6, 7, 8, 255, 255] :=
  ⟨by decide,
    (alt_payload_layout [⟨1, 2, 3, 4⟩, ⟨5, 6, 7, 8⟩]).2.2.2.1 (by decide),
    (alt_payload_layout [⟨1, 2, 3, 4⟩, ⟨5, 6, 7, 8⟩]).1⟩

/-! ## Read errors and closing of blocks -/

/-- A read error that is not end of stream has no effect on the loop: it behaves as
if the read had returned the same chunk without an error. -/
theorem rewriteLoop_ignores_read_error (bluePal : List RGBA) (frameInfos : List FrameInfo)
    (wr : Nat → Option GoError) (oc : Option Chunk) (code : Nat) (rest : List ReadResult)
    (s : RwState) :
    rewriteLoop bluePal frameInfos wr (⟨oc, some (.other code)⟩ :: rest) s =
      rewriteLoop bluePal frameInfos wr (⟨oc, none⟩ :: rest) s := by
  simp [rewriteLoop, GoError.isEOF]

/-- C9, evaluation at the failing inputs: an end-of-stream error ends the run
normally; a read error that is not end of stream and comes with a nil chunk ends
in the panic of `chunk.Length()` on nil, not in a returned error; the same error
coming with a chunk is dropped, the chunk is forwarded and the run reports
success. -/
theorem read_error_not_returned :
    (rewriteStage [] [] none none [⟨none, some .EOF⟩] writerOk none).outcome = .ok ∧
      (rewriteStage [] [] none none [⟨none, some (.other 1)⟩] writerOk none).outcome = .panic ∧
      (rewriteStage [] [] none none [⟨none, some (.other 1)⟩] writerOk none).outcome ≠
        .error (.other 1) ∧
      (rewriteStage [] [] none none [⟨some sampleIHDR, some (.other 1)⟩] writerOk none).outcome
        = .ok ∧
      (rewriteStage [] [] none none [⟨some sampleIHDR, some (.other 1)⟩] writerOk
        none).state.out = [.forwarded sampleIHDR] := by
  decide

/-- C10, evaluation at the failing inputs: when the write of a forwarded block fails,
or the write of the first synthesized block fails, `dumpBattleTiles` returns that
error and the block that was read has not been closed. -/
theorem early_return_leaves_block_open :
    (rewriteStage [] [] none none [ReadResult.block sampleIHDR]
        (fun _ => some (.other 2)) none).outcome = .error (.other 2) ∧
      (rewriteStage [] [] none none [ReadResult.block sampleIHDR]
        (fun _ => some (.other 2)) none).state.closed = [] ∧
      (rewriteStage [] [] none none [ReadResult.block sampleIHDR, ReadResult.block sampleTRNS]
        (fun n => if n = 2 then some (.other 3) else none) none).outcome = .error (.other 3) ∧
      (rewriteStage [] [] none none [ReadResult.block sampleIHDR, ReadResult.block sampleTRNS]
        (fun n => if n = 2 then some (.other 3) else none) none).state.closed = [sampleIHDR] := by
  decide

/-! ## The synthesized payloads are byte strings -/

theorem putInt16LE_lt (v : Int) : ∀ b ∈ putInt16LE v, b < 256 := by
  intro b hb
  simp only [putInt16LE, List.mem_cons, List.mem_singleton, List.not_mem_nil, or_false] at hb
  omega

theorem uint8_lt (x : Int) : uint8 x < 256 := by
  unfold uint8
  omega

theorem frameRecord_bytes_lt (k : Nat) (fi : FrameInfo) :
    ∀ b ∈ (mkFrameRecord k fi).bytes, b < 256 := by
  intro b hb
  rw [frameRecord_bytes] at hb
  simp only [List.mem_append, List.mem_cons, List.mem_singleton, List.not_mem_nil, or_false] at hb
  rcases hb with ((((((h | h) | h) | h) | h) | h) | h)
  · exact putInt16LE_lt _ b h
  · exact putInt16LE_lt _ b h
  · exact putInt16LE_lt _ b h
  · exact putInt16LE_lt _ b h
  · omega
  · omega
  · rcases h with h | h
    · rw [h]; exact uint8_lt _
    · rw [h]; split <;> omega

theorem fctrlLoop_bytes_lt (fis : List FrameInfo) :
    ∀ (i : Nat), ∀ b ∈ fctrlLoop fis i [], b < 256 := by
  induction fis with
  | nil => intro i b hb; simp [fctrlLoop] at hb
  | cons fi rest ih =>
    intro i b hb
    rw [fctrlLoop, fctrlLoop_append, List.nil_append, List.mem_append] at hb
    rcases hb with h | h
    · exact frameRecord_bytes_lt i fi b h
    · exact ih (i + 1) b h

/-- Every byte of the frame-control payload is below 256. -/
theorem fctrlPayload_bytes_lt (fis : List FrameInfo) : ∀ b ∈ fctrlPayload fis, b < 256 := by
  intro b hb
  rw [fctrlPayload_eq, List.mem_append] at hb
  rcases hb with h | h
  · simp only [List.mem_cons, List.mem_singleton, List.not_mem_nil, or_false] at h
    omega
  · exact fctrlLoop_bytes_lt fis 0 b h

/-- Every byte of the alt-palette payload is below 256. -/
theorem altPayload_bytes_lt (pal : List RGBA) : ∀ b ∈ altPayload pal, b < 256 := by
  intro b hb
  rw [altPayload_eq, List.mem_append, List.mem_flatMap] at hb
  rcases hb with h | ⟨c, _, h⟩
  · simp only [List.mem_cons, List.mem_singleton, List.not_mem_nil, or_false] at h
    omega
  · simp only [List.mem_cons, List.mem_singleton, List.not_mem_nil, or_false] at h
    have := c.R.isLt
    have := c.G.isLt
    have := c.B.isLt
    have := c.A.isLt
    omega

/-! ## Geometry of the slots -/

theorem placedRect_eq (k : Nat) : placedRect k = slotRect k := by
  have h := imageRect_slot k
  simp only [placedRect]
  push_cast at h ⊢
  exact h

theorem canvasRect_eq : canvasRect = ⟨⟨0, 0⟩, ⟨360, 4800⟩⟩ := by decide

/-- The draw call at position `k` of the trace went to `placedRect k`. -/
theorem draws_rect {τ : Type} (redTileByIndex : List (List Int)) (tiles : List τ)
    (k : Nat) (d : DrawCall τ) (h : (placementLoop redTileByIndex tiles).2.draws[k]? = some d) :
    d.rect = placedRect k := by
  obtain ⟨hk, hget⟩ := List.getElem?_eq_some.mp h
  have hinv := (placeInv_placeFrom redTileByIndex tiles 0 _ (placeInv_init τ)).2 k hk
  rw [placedRect_eq, ← hget]
  simpa [placementLoop] using hinv

/-- Two distinct slots differ in their column or in their row, and their cells are
apart by at least a tile in that direction. -/
theorem slotRect_disjoint (i k : Nat) (hik : i ≠ k) :
    (slotRect i).Max.X ≤ (slotRect k).Min.X ∨ (slotRect k).Max.X ≤ (slotRect i).Min.X ∨
      (slotRect i).Max.Y ≤ (slotRect k).Min.Y ∨ (slotRect k).Max.Y ≤ (slotRect i).Min.Y := by
  simp only [slotRect]
  omega

theorem intersect_of_disjoint (r s : Rectangle)
    (h : r.Max.X ≤ s.Min.X ∨ s.Max.X ≤ r.Min.X ∨ r.Max.Y ≤ s.Min.Y ∨ s.Max.Y ≤ r.Min.Y) :
    r.Intersect s = ZR := by
  unfold Rectangle.Intersect
  simp only []
  rw [if_pos]
  simp only [Rectangle.Empty, Bool.or_eq_true, decide_eq_true_eq]
  split_ifs <;> omega

theorem overlaps_of_disjoint (r s : Rectangle)
    (h : r.Max.X ≤ s.Min.X ∨ s.Max.X ≤ r.Min.X ∨ r.Max.Y ≤ s.Min.Y ∨ s.Max.Y ≤ r.Min.Y) :
    r.Overlaps s = false := by
  simp only [Rectangle.Overlaps, Bool.and_eq_false_iff, decide_eq_false_iff_not]
  omega

theorem no_common_point_of_disjoint (r s : Rectangle)
    (h : r.Max.X ≤ s.Min.X ∨ s.Max.X ≤ r.Min.X ∨ r.Max.Y ≤ s.Min.Y ∨ s.Max.Y ≤ r.Min.Y)
    (p : Point) : ¬ (p.In r = true ∧ p.In s = true) := by
  simp only [Point.In, Bool.and_eq_true, decide_eq_true_eq]
  omega

/-- C11: for every two distinct slot indices `i` and `k`, the rectangles the placement
loop computes for them (top-left `((n mod 9) * 40, (n div 9) * 24)`, size `40 x 24`)
have an empty intersection: `Intersect` gives the zero rectangle, `Overlaps` is false
and no point lies in both. In particular any two draw calls of one run of the
loop went to rectangles without a common point, so no placed tile overwrites the
region of another. -/
theorem slots_do_not_overlap {τ : Type} (redTileByIndex : List (List Int)) (tiles : List τ)
    (i k : Nat) (hik : i ≠ k) :
    placedRect i = ⟨⟨((i % 9) * 40 : Nat), ((i / 9) * 24 : Nat)⟩,
        ⟨((i % 9) * 40 + 40 : Nat), ((i / 9) * 24 + 24 : Nat)⟩⟩ ∧
      (placedRect i).Intersect (placedRect k) = ZR ∧
      (placedRect i).Overlaps (placedRect k) = false ∧
      (∀ p : Point, ¬ (p.In (placedRect i) = true ∧ p.In (placedRect k) = true)) ∧
      (∀ di dk : DrawCall τ,
        (placementLoop redTileByIndex tiles).2.draws[i]? = some di →
        (placementLoop redTileByIndex tiles).2.draws[k]? = some dk →
        di.rect.Intersect dk.rect = ZR ∧ di.rect.Overlaps dk.rect = false ∧
          ∀ p : Point, ¬ (p.In di.rect = true ∧ p.In dk.rect = true)) := by
  have hd := slotRect_disjoint i k hik
  rw [← placedRect_eq, ← placedRect_eq] at hd
  refine ⟨by rw [placedRect_eq]; rfl, intersect_of_disjoint _ _ hd, overlaps_of_disjoint _ _ hd,
    no_common_point_of_disjoint _ _ hd, ?_⟩
  intro di dk hi hk
  rw [draws_rect redTileByIndex tiles i di hi, draws_rect redTileByIndex tiles k dk hk]
  exact ⟨intersect_of_disjoint _ _ hd, overlaps_of_disjoint _ _ hd,
    no_common_point_of_disjoint _ _ hd⟩

/-- Witness for C11: slots 3 and 12 (one column, neighbouring rows) of a run that
places fifteen tiles. -/
theorem slots_do_not_overlap_witness :
    (3 : Nat) ≠ 12 ∧
      (placedRect 3).Intersect (placedRect 12) = ZR ∧
      (placedRect 3).Overlaps (placedRect 12) = false ∧
      (placementLoop [[0, 1, 2, 3, 4]] [(), (), ()]).2.draws[3]? =
        some ⟨⟨⟨120, 0⟩, ⟨160, 24⟩⟩, 0, (), 3⟩ ∧
      (placementLoop [[0, 1, 2, 3, 4]] [(), (), ()]).2.draws[12]? =
        some ⟨⟨⟨120, 24⟩, ⟨160, 48⟩⟩, 2, (), 2⟩ ∧
      (⟨⟨120, 0⟩, ⟨160, 24⟩⟩ : Rectangle).Intersect ⟨⟨120, 24⟩, ⟨160, 48⟩⟩ = ZR :=
  ⟨by decide,
    (slots_do_not_overlap [[0, 1, 2, 3, 4]] [(), (), ()] 3 12 (by decide)).2.1,
    (slots_do_not_overlap [[0, 1, 2, 3, 4]] [(), (), ()] 3 12 (by decide)).2.2.1,
    by decide, by decide,
    ((slots_do_not_overlap [[0, 1, 2, 3, 4]] [(), (), ()] 3 12 (by decide)).2.2.2.2
      ⟨⟨⟨120, 0⟩, ⟨160, 24⟩⟩, 0, (), 3⟩ ⟨⟨⟨120, 24⟩, ⟨160, 48⟩⟩, 2, (), 2⟩
      (by decide) (by decide)).1⟩

theorem slotRect_in_canvas (k : Nat) (h : k < 1800) :
    0 ≤ (slotRect k).Min.X ∧ (slotRect k).Max.X ≤ 360 ∧
      0 ≤ (slotRect k).Min.Y ∧ (slotRect k).Max.Y ≤ 4800 ∧
      (slotRect k).Min.X < (slotRect k).Max.X ∧ (slotRect k).Min.Y < (slotRect k).Max.Y := by
  simp only [slotRect]
  omega

theorem slotRect_below_canvas (k : Nat) (h : 1800 ≤ k) : 4800 ≤ (slotRect k).Min.Y := by
  simp only [slotRect]
  omega

/-- C15: the canvas is the rectangle `(0, 0, 360, 4800)` of `9 x 200 = 1800` cells. For
every slot index `k < 1800` the rectangle of slot `k` is non-empty and lies
entirely inside the canvas; for every `k >= 1800` its top is at or below the bottom
edge of the canvas, its intersection with the canvas is empty and no point of the
canvas lies in it. -/
theorem slot_canvas_bounds (k : Nat) :
    canvasCapacity = 1800 ∧ canvasRect = ⟨⟨0, 0⟩, ⟨9 * 40, 200 * 24⟩⟩ ∧
      (k < canvasCapacity →
        (placedRect k).In canvasRect = true ∧ (placedRect k).Empty = false ∧
          ∀ p : Point, p.In (placedRect k) = true → p.In canvasRect = true) ∧
      (canvasCapacity ≤ k →
        canvasRect.Max.Y ≤ (placedRect k).Min.Y ∧
          (placedRect k).Intersect canvasRect = ZR ∧
          (placedRect k).Overlaps canvasRect = false ∧
          ∀ p : Point, ¬ (p.In (placedRect k) = true ∧ p.In canvasRect = true)) := by
  refine ⟨by decide, by decide, ?_, ?_⟩
  · intro hk
    have hk2 : k < 1800 := hk
    obtain ⟨h1, h2, h3, h4, h5, h6⟩ := slotRect_in_canvas k hk2
    rw [placedRect_eq, canvasRect_eq]
    refine ⟨?_, ?_, ?_⟩
    · have hne : (slotRect k).Empty = false := by
        simp only [Rectangle.Empty, Bool.or_eq_false_iff, decide_eq_false_iff_not]
        omega
      simp only [Rectangle.In, hne, Bool.false_eq_true, if_false, Bool.and_eq_true,
        decide_eq_true_eq]
      exact ⟨⟨⟨h1, h2⟩, h3⟩, h4⟩
    · simp only [Rectangle.Empty, Bool.or_eq_false_iff, decide_eq_false_iff_not]
      omega
    · intro p
      simp only [Point.In, Bool.and_eq_true, decide_eq_true_eq]
      omega
  · intro hk
    have hk2 : 1800 ≤ k := hk
    have hy := slotRect_below_canvas k hk2
    rw [placedRect_eq, canvasRect_eq]
    have hd : (slotRect k).Max.X ≤ (⟨⟨0, 0⟩, ⟨360, 4800⟩⟩ : Rectangle).Min.X ∨
        (⟨⟨0, 0⟩, ⟨360, 4800⟩⟩ : Rectangle).Max.X ≤ (slotRect k).Min.X ∨
        (slotRect k).Max.Y ≤ (⟨⟨0, 0⟩, ⟨360, 4800⟩⟩ : Rectangle).Min.Y ∨
        (⟨⟨0, 0⟩, ⟨360, 4800⟩⟩ : Rectangle).Max.Y ≤ (slotRect k).Min.Y :=
      Or.inr (Or.inr (Or.inr hy))
    exact ⟨hy, intersect_of_disjoint _ _ hd, overlaps_of_disjoint _ _ hd,
      no_common_point_of_disjoint _ _ hd⟩

/-- Witness for C15: slot 1799 is the last cell of the canvas, slot 1800 starts at
the bottom edge. -/
theorem slot_canvas_bounds_witness :
    1799 < canvasCapacity ∧ (placedRect 1799).In canvasRect = true ∧
      placedRect 1799 = ⟨⟨320, 4776⟩, ⟨360, 4800⟩⟩ ∧
      canvasCapacity ≤ 1800 ∧ canvasRect.Max.Y ≤ (placedRect 1800).Min.Y ∧
      (placedRect 1800).Intersect canvasRect = ZR ∧
      placedRect 1800 = ⟨⟨0, 4800⟩, ⟨40, 4824⟩⟩ :=
  ⟨by decide, ((slot_canvas_bounds 1799).2.2.1 (by decide)).1, by decide,
    by decide, ((slot_canvas_bounds 1800).2.2.2 (by decide)).1,
    ((slot_canvas_bounds 1800).2.2.2 (by decide)).2.1, by decide⟩

/-! ## The slot counter -/

theorem placeOne_idx {τ : Type} (j : Nat) (t : τ) (p : Int) (s : PlaceState τ) :
    (placeOne j t p s).idx = s.idx + 1 := rfl

theorem placeTile_idx {τ : Type} (j : Nat) (t : τ) (ps : List Int) :
    ∀ s : PlaceState τ, (placeTile j t ps s).idx = s.idx + ps.length := by
  induction ps with
  | nil => intro s; rfl
  | cons p rest ih =>
    intro s
    rw [placeTile, ih, placeOne_idx, List.length_cons]
    omega

/-- With every group index in range the outer loop runs to its end and advances the
slot counter by the total length of the expansion lists. -/
theorem placeFrom_idx {τ : Type} (table : List (List Int)) (tiles : List τ) :
    ∀ (j0 : Nat) (s : PlaceState τ), (∀ n, n < tiles.length → (j0 + n) / 3 < table.length) →
      (placeFrom table tiles j0 s).1 = .finished ∧
      (placeFrom table tiles j0 s).2.idx = s.idx +
        ((List.range tiles.length).map (fun n => (table[(j0 + n) / 3]?.getD []).length)).sum := by
  induction tiles with
  | nil => intro j0 s _; exact ⟨rfl, rfl⟩
  | cons t rest ih =>
    intro j0 s h
    have h0 : j0 / 3 < table.length := by simpa using h 0 (by simp)
    have hrest : ∀ n, n < rest.length → (j0 + 1 + n) / 3 < table.length := by
      intro n hn
      have := h (n + 1) (by simp; omega)
      rwa [show j0 + (n + 1) = j0 + 1 + n by omega] at this
    have hget : table[j0 / 3]? = some table[j0 / 3] := List.getElem?_eq_getElem h0
    simp only [placeFrom, hget]
    obtain ⟨hfin, hidx⟩ := ih (j0 + 1) (placeTile j0 t table[j0 / 3] s) hrest
    refine ⟨hfin, ?_⟩
    rw [hidx, placeTile_idx, List.length_cons, List.range_succ_eq_map, List.map_cons,
      List.sum_cons, List.map_map]
    simp only [Nat.add_zero, hget, Option.getD_some]
    have hfun : ((fun n => (table[(j0 + n) / 3]?.getD []).length) ∘ Nat.succ) =
        (fun n => (table[(j0 + 1 + n) / 3]?.getD []).length) := by
      funext n
      simp only [Function.comp, Nat.succ_eq_add_one]
      rw [show j0 + (n + 1) = j0 + 1 + n by omega]
    rw [hfun]
    omega

theorem draws_rects_of_inv {τ : Type} (s : PlaceState τ) (hs : PlaceInv s) :
    s.draws.map (fun d => d.rect) = (List.range s.idx).map placedRect := by
  obtain ⟨hidx, hrect⟩ := hs
  apply List.ext_getElem
  · simp [hidx]
  · intro n h1 h2
    simp only [List.getElem_map, List.getElem_range]
    rw [placedRect_eq]
    have := hrect n (by simpa using h1)
    simpa using this

/-- C14: for every tile list and expansion table with every group index `j div 3` in
range, the placement loop runs to its end and the slot counter `idx` ends at the
sum, over all source tile indices `j`, of the length of `RedTileByIndex[j div 3]`. Each
expansion advances the counter by exactly one, a tile with an empty expansion list
leaves the state unchanged, and the slots used are exactly `0 .. idx-1` in order:
one draw call per slot, the `k`-th into the rectangle of slot `k`. -/
theorem placement_slot_count {τ : Type} (redTileByIndex : List (List Int)) (tiles : List τ)
    (h : ∀ j, j < tiles.length → j / 3 < redTileByIndex.length) :
    (placementLoop redTileByIndex tiles).1 = .finished ∧
      (placementLoop redTileByIndex tiles).2.idx =
        ((List.range tiles.length).map
          (fun j => (redTileByIndex[j / 3]?.getD []).length)).sum ∧
      (placementLoop redTileByIndex tiles).2.draws.length =
        (placementLoop redTileByIndex tiles).2.idx ∧
      (placementLoop redTileByIndex tiles).2.draws.map (fun d => d.rect) =
        (List.range (placementLoop redTileByIndex tiles).2.idx).map placedRect ∧
      (∀ (j : Nat) (t : τ) (p : Int) (s : PlaceState τ), (placeOne j t p s).idx = s.idx + 1) ∧
      (∀ (j : Nat) (t : τ) (s : PlaceState τ), placeTile j t [] s = s) := by
  have h0 : ∀ n, n < tiles.length → (0 + n) / 3 < redTileByIndex.length := by
    intro n hn
    rw [Nat.zero_add]
    exact h n hn
  obtain ⟨hfin, hidx⟩ := placeFrom_idx redTileByIndex tiles 0 (PlaceState.init τ) h0
  have hinv := placeInv_placeFrom redTileByIndex tiles 0 _ (placeInv_init τ)
  refine ⟨hfin, ?_, hinv.1.symm, draws_rects_of_inv _ hinv, fun j t p s => rfl,
    fun j t s => rfl⟩
  rw [placementLoop, hidx]
  simp [PlaceState.init]

/-- Witness for C14: seven tiles over the groups `[0, 1]`, `[]`, `[2]` give
`2 + 2 + 2 + 0 + 0 + 0 + 1 = 7` slots. -/
theorem placement_slot_count_witness :
    (∀ j, j < [(), (), (), (), (), (), ()].length →
        j / 3 < ([[0, 1], [], [2]] : List (List Int)).length) ∧
      (placementLoop [[0, 1], [], [2]] [(), (), (), (), (), (), ()]).1 = .finished ∧
      (placementLoop [[0, 1], [], [2]] [(), (), (), (), (), (), ()]).2.idx = 7 ∧
      (placementLoop [[0, 1], [], [2]] [(), (), (), (), (), (), ()]).2.draws.length = 7 :=
  ⟨by decide,
    (placement_slot_count [[0, 1], [], [2]] [(), (), (), (), (), (), ()] (by decide)).1,
    (placement_slot_count [[0, 1], [], [2]] [(), (), (), (), (), (), ()] (by decide)).2.1,
    by decide⟩

/-! ## Losslessness of the coordinate conversions -/

theorem int16_range (x : Int) : -32768 ≤ int16 x ∧ int16 x ≤ 32767 := by
  unfold int16
  omega

theorem int16_eq_iff (n : Nat) : int16 (n : Int) = (n : Int) ↔ n ≤ 32767 := by
  constructor
  · intro h
    have := (int16_range (n : Int)).2
    omega
  · intro h
    exact int16_of_small n (by omega)

theorem frameRecord_fields (k : Nat) (fi : FrameInfo) :
    (mkFrameRecord k fi).Left = int16 (((k % 9) * 40 : Nat) : Int) ∧
      (mkFrameRecord k fi).Top = int16 (((k / 9) * 24 : Nat) : Int) ∧
      (mkFrameRecord k fi).Right = int16 (((k % 9) * 40 + 40 : Nat) : Int) ∧
      (mkFrameRecord k fi).Bottom = int16 (((k / 9) * 24 + 24 : Nat) : Int) := by
  have hw : tileWidth = 40 := by decide
  have hh : tileHeight = 24 := by decide
  rw [mkFrameRecord]
  simp only []
  rw [hw, hh]
  exact ⟨rfl, rfl, rfl, rfl⟩

/-- C16: for every frame record index `k < 1800` (the canvas capacity) the conversions
of left, top, right and bottom to signed 16-bit are lossless: each computed
coordinate lies in `[0, 32767]` and the stored field equals it. More precisely, for
any `k` the stored bottom equals `(k div 9) * 24 + 24` exactly when `k div 9 <= 1364`. -/
theorem coordinate_conversions_lossless (k : Nat) (fi : FrameInfo) :
    (k < canvasCapacity →
      ((mkFrameRecord k fi).Left = (((k % 9) * 40 : Nat) : Int) ∧
        (mkFrameRecord k fi).Top = (((k / 9) * 24 : Nat) : Int) ∧
        (mkFrameRecord k fi).Right = (((k % 9) * 40 + 40 : Nat) : Int) ∧
        (mkFrameRecord k fi).Bottom = (((k / 9) * 24 + 24 : Nat) : Int)) ∧
      ((k % 9) * 40 ≤ 32767 ∧ (k / 9) * 24 ≤ 32767 ∧
        (k % 9) * 40 + 40 ≤ 32767 ∧ (k / 9) * 24 + 24 ≤ 32767)) ∧
      ((mkFrameRecord k fi).Bottom = (((k / 9) * 24 + 24 : Nat) : Int) ↔ k / 9 ≤ 1364) := by
  obtain ⟨hl, ht, hr, hb⟩ := frameRecord_fields k fi
  refine ⟨?_, ?_⟩
  · intro hk
    have hk2 : k < 1800 := hk
    rw [hl, ht, hr, hb]
    refine ⟨⟨?_, ?_, ?_, ?_⟩, by omega⟩
    · exact int16_of_small _ (by omega)
    · exact int16_of_small _ (by omega)
    · exact int16_of_small _ (by omega)
    · exact int16_of_small _ (by omega)
  · rw [hb, int16_eq_iff]
    omega

/-- Witness for C16: at `k = 1799` the record stores bottom 4800; at `k = 12284` (row
1364) it stores bottom 32760; at `k = 12285` (row 1365) the stored bottom is not
32784. -/
theorem coordinate_conversions_lossless_witness :
    1799 < canvasCapacity ∧
      (mkFrameRecord 1799 ⟨1, false⟩).Left = 320 ∧
      (mkFrameRecord 1799 ⟨1, false⟩).Bottom = 4800 ∧
      12284 / 9 ≤ 1364 ∧ (mkFrameRecord 12284 ⟨1, false⟩).Bottom = 32760 ∧
      ¬ (12285 / 9 ≤ 1364) ∧ ¬ ((mkFrameRecord 12285 ⟨1, false⟩).Bottom = 32784) :=
  ⟨by decide,
    ((coordinate_conversions_lossless 1799 ⟨1, false⟩).1 (by decide)).1.1,
    ((coordinate_conversions_lossless 1799 ⟨1, false⟩).1 (by decide)).1.2.2.2,
    by decide,
    (coordinate_conversions_lossless 12284 ⟨1, false⟩).2.mpr (by decide),
    by decide,
    fun h => absurd ((coordinate_conversions_lossless 12285 ⟨1, false⟩).2.mp h) (by decide)⟩

/-! ## Palette capacity -/

theorem foldl_mergeColor_nodup (l : List RGBA) :
    ∀ acc : List RGBA, (acc ++ l).Nodup → l.foldl mergeColor acc = acc ++ l := by
  induction l with
  | nil => intro acc _; simp
  | cons c rest ih =>
    intro acc h
    have hc : c ∉ acc := by
      intro hmem
      have := List.nodup_append.mp h
      exact this.2.2 hmem (List.mem_cons_self _ _)
    rw [List.foldl_cons, mergeColor, if_neg hc, ih (acc ++ [c]) (by simpa using h)]
    simp

theorem distinctBank_nodup (n : Nat) (h : n ≤ 65536) : (distinctBank n).Nodup := by
  unfold distinctBank
  apply List.Nodup.map_on _ (List.nodup_range n)
  intro i hi j hj hij
  rw [List.mem_range] at hi hj
  simp only [RGBA.mk.injEq, and_true] at hij
  obtain ⟨h1, h2⟩ := hij
  have e1 := congrArg Fin.val h1
  have e2 := congrArg Fin.val h2
  simp only [Fin.ofNat, Nat.mod_mod] at e1 e2
  omega

theorem globalPalette_single_bank (bank : List RGBA) (h : bank.Nodup) :
    globalPalette [bank] [[0]] = bank := by
  have href : referencedColors [bank] [[0]] = bank := by
    simp [referencedColors, bankAt]
  rw [globalPalette, href, foldl_mergeColor_nodup bank [] (by simpa using h)]
  rfl

theorem globalPalette_distinctBank (n : Nat) (h : n ≤ 65536) :
    (globalPalette [distinctBank n] [[0]]).length = n := by
  rw [globalPalette_single_bank _ (distinctBank_nodup n h)]
  simp [distinctBank]

/-- C13: for every set of palette banks whose consolidated global palette for the red
or for the blue variant has more unique colours than the maximum palette size
(256), `dumpBattleTiles` ends with the palette-capacity-exceeded failure of
`ConsolidatePalbank`, before the output file is created and with no block
written, whatever the later steps would have done. -/
theorem capacity_exceeded_before_create {τ : Type} (palbanks : List (List RGBA))
    (redTileByIndex blueTileByIndex : List (List Int))
    (readTiles : Except GoError (List τ)) (createErr : Option GoError)
    (frameInfos : List FrameInfo) (newReaderErr newWriterErr : Option GoError)
    (reads : List ReadResult) (wr : Nat → Option GoError) (encodeErr : Option GoError)
    (h : (globalPalette palbanks redTileByIndex).length > maxPaletteSize ∨
      (globalPalette palbanks blueTileByIndex).length > maxPaletteSize) :
    maxPaletteSize = 256 ∧
      (dumpBattleTiles ConsolidatePalbank (.ok palbanks) redTileByIndex blueTileByIndex
        readTiles createErr frameInfos newReaderErr newWriterErr reads wr
        encodeErr).outcome = .capacityExceeded ∧
      (dumpBattleTiles ConsolidatePalbank (.ok palbanks) redTileByIndex blueTileByIndex
        readTiles createErr frameInfos newReaderErr newWriterErr reads wr
        encodeErr).fileCreated = false ∧
      (dumpBattleTiles ConsolidatePalbank (.ok palbanks) redTileByIndex blueTileByIndex
        readTiles createErr frameInfos newReaderErr newWriterErr reads wr
        encodeErr).state.out = [] := by
  have hres : dumpBattleTiles ConsolidatePalbank (.ok palbanks) redTileByIndex blueTileByIndex
      readTiles createErr frameInfos newReaderErr newWriterErr reads wr encodeErr =
      ⟨.capacityExceeded, false, RwState.init, false⟩ := by
    by_cases hr : (globalPalette palbanks redTileByIndex).length > maxPaletteSize
    · simp [dumpBattleTiles, ConsolidatePalbank, hr]
    · have hb : (globalPalette palbanks blueTileByIndex).length > maxPaletteSize := by
        rcases h with h | h
        · exact absurd h hr
        · exact h
      simp [dumpBattleTiles, ConsolidatePalbank, hr, hb]
  rw [hres]
  exact ⟨rfl, rfl, rfl, rfl⟩

/-- Witness for C13: a bank of 257 pairwise different colours used by the red variant. -/
theorem capacity_exceeded_before_create_witness :
    (globalPalette [distinctBank 257] [[0]]).length > maxPaletteSize ∧
      (dumpBattleTiles ConsolidatePalbank (.ok [distinctBank 257]) [[0]] [[]]
        (.ok [(), ()]) none [] none none [ReadResult.block sampleIHDR] writerOk
        none).outcome = .capacityExceeded ∧
      (dumpBattleTiles ConsolidatePalbank (.ok [distinctBank 257]) [[0]] [[]]
        (.ok [(), ()]) none [] none none [ReadResult.block sampleIHDR] writerOk
        none).fileCreated = false :=
  ⟨by rw [globalPalette_distinctBank 257 (by decide)]; decide,
    (capacity_exceeded_before_create [distinctBank 257] [[0]] [[]] (.ok [(), ()]) none []
      none none [ReadResult.block sampleIHDR] writerOk none
      (Or.inl (by rw [globalPalette_distinctBank 257 (by decide)]; decide))).2.1,
    (capacity_exceeded_before_create [distinctBank 257] [[0]] [[]] (.ok [(), ()]) none []
      none none [ReadResult.block sampleIHDR] writerOk none
      (Or.inl (by rw [globalPalette_distinctBank 257 (by decide)]; decide))).2.2.1⟩

/-- The body of `dumpBattleTiles` itself has no capacity check: whenever both calls of
the consolidator return, the tiles are read and the placement loop finishes,
`os.Create` is reached, and if it succeeds the file exists before the encode stage
starts, whatever the size of the palettes. -/
theorem dump_reaches_create {τ : Type}
    (consolidate : List (List RGBA) → List (List Int) → Option (List RGBA))
    (palbanks : List (List RGBA)) (redTileByIndex blueTileByIndex : List (List Int))
    (tiles : List τ) (frameInfos : List FrameInfo) (newReaderErr newWriterErr : Option GoError)
    (reads : List ReadResult) (wr : Nat → Option GoError) (encodeErr : Option GoError)
    (redPal bluePal : List RGBA)
    (hred : consolidate palbanks redTileByIndex = some redPal)
    (hblue : consolidate palbanks blueTileByIndex = some bluePal)
    (hplace : (placementLoop redTileByIndex tiles).1 = .finished) :
    (dumpBattleTiles consolidate (.ok palbanks) redTileByIndex blueTileByIndex (.ok tiles)
      none frameInfos newReaderErr newWriterErr reads wr encodeErr).fileCreated = true := by
  simp [dumpBattleTiles, hred, hblue, hplace]

/-! ## Joining the encode stage -/

/-- The rewrite stage calls `g.Wait()` exactly when both constructors succeed and the
loop ends on end of stream. -/
theorem rewriteStage_waited (bluePal : List RGBA) (frameInfos : List FrameInfo)
    (newReaderErr newWriterErr : Option GoError) (reads : List ReadResult)
    (wr : Nat → Option GoError) (encodeErr : Option GoError) :
    (rewriteStage bluePal frameInfos newReaderErr newWriterErr reads wr encodeErr).waited = true ↔
      newReaderErr = none ∧ newWriterErr = none ∧
        (rewriteLoop bluePal frameInfos wr reads RwState.init).1 = .eof := by
  unfold rewriteStage
  cases newReaderErr with
  | some e => simp
  | none =>
    cases newWriterErr with
    | some e => simp
    | none =>
      rcases hl : rewriteLoop bluePal frameInfos wr reads RwState.init with ⟨ex, st⟩
      cases ex with
      | eof => cases encodeErr <;> simp
      | returned e => simp
      | nilChunk => simp

/-- C12, evaluation at the failing inputs: after the encode stage has been started
(the output file exists), `dumpBattleTiles` returns the error of `NewReader`, of
`NewWriter`, of a failed forwarding write, of a failed write of a synthesized
block and of a failed `Close` without having called `g.Wait()`; only the path
through the end of the stream calls it. -/
theorem early_return_skips_wait :
    (sampleRun (some (.other 1)) none [] writerOk) =
        ⟨.returned (some (.other 1)), true, RwState.init, false⟩ ∧
      (sampleRun none (some (.other 2)) [] writerOk) =
        ⟨.returned (some (.other 2)), true, RwState.init, false⟩ ∧
      (sampleRun none none [ReadResult.block sampleIHDR] (fun _ => some (.other 3))).outcome =
        .returned (some (.other 3)) ∧
      (sampleRun none none [ReadResult.block sampleIHDR] (fun _ => some (.other 3))).waited =
        false ∧
      (sampleRun none none [ReadResult.block sampleTRNS]
        (fun n => if n = 1 then some (.other 4) else none)).outcome =
        .returned (some (.other 4)) ∧
      (sampleRun none none [ReadResult.block sampleTRNS]
        (fun n => if n = 1 then some (.other 4) else none)).waited = false ∧
      (sampleRun none none [ReadResult.block sampleUnclosable] writerOk).outcome =
        .returned (some (.other 5)) ∧
      (sampleRun none none [ReadResult.block sampleUnclosable] writerOk).waited = false ∧
      (sampleRun none none [ReadResult.block sampleIHDR] writerOk).outcome = .returned none ∧
      (sampleRun none none [ReadResult.block sampleIHDR] writerOk).waited = true := by
  decide

end BattleTiles
